import Mathlib

/-!
Verification of the Postgres-records data-access layer.

This development gives a shallow embedding of the two core subsystems of the
repository and proves the specification's claims about them:

* the WHERE condition-tree compiler (`src/repository/select/where/where.ts`
  together with the operator and condition constructors of `operators.ts` and
  `conditions.ts`), embedded over a type `JsValue` of JavaScript runtime
  values so that the source's dynamic shape tests (`"type" in node`,
  truthiness probing of `.type` / `.field`, `Array.isArray`) are modelled
  exactly as the code performs them;

* the transaction handler (`src/utils/transaction.ts`,
  `src/interfaces/DbError.ts`) and the connection retry loop
  (`src/utils/connection.ts`), embedded as pure functions over an explicit
  environment describing the outcome of each external interaction
  (connection acquisition, BEGIN/COMMIT/ROLLBACK, the unit of work), which
  return both the resolved result and the ordered trace of observable
  effects (queries issued, log events, the last-used-timestamp refresh and
  the release of the connection).
-/

set_option maxHeartbeats 1000000

namespace PgRecords

/-- A JavaScript runtime value.  Objects are modelled as association lists in
insertion order (which is what `Object.entries` iterates), arrays as lists. -/
inductive JsValue where
  | null
  | undef
  | bool (b : Bool)
  | num (n : Int)
  | str (s : String)
  | arr (elems : List JsValue)
  | obj (fields : List (String × JsValue))
deriving Repr

/-- JavaScript truthiness of a value (`if (v)`, `v || d`). -/
def truthy : JsValue → Bool
  | .null => false
  | JsValue.undef => false
  | .bool b => b
  | .num n => decide (n ≠ 0)
  | .str s => decide (s ≠ "")
  | .arr _ => true
  | .obj _ => true

/-- Strict equality `v === "s"` against a string literal. -/
def isStr (v : JsValue) (s : String) : Bool :=
  match v with
  | .str t => t == s
  | _ => false

/-- Strict equality `v === null`. -/
def isNullV : JsValue → Bool
  | .null => true
  | _ => false

/-- First binding of a key in an object's field list (JavaScript property
lookup on our materialised objects, whose keys are unique). -/
def lookupField : List (String × JsValue) → String → JsValue
  | [], _ => JsValue.undef
  | (a, b) :: rest, k => if a == k then b else lookupField rest k

/-- Property read `v.k`; `undefined` when the key is absent or the value is
not an object.  (The compiler only reads properties of its node objects.) -/
def getProp (v : JsValue) (k : String) : JsValue :=
  match v with
  | .obj fields => lookupField fields k
  | _ => JsValue.undef

/-- The `k in v` test of the source (`"type" in node`). -/
def hasProp (v : JsValue) (k : String) : Bool :=
  match v with
  | .obj fields => fields.any (fun p => p.1 == k)
  | _ => false

/-- View a value as an array, as in `x || []` followed by iteration; non-array
values yield the empty list.  (A truthy non-array under `for...of` would throw
in JavaScript; that shape is outside the `ConditionNode` type and outside
every claim, so it is mapped to the empty list here.) -/
def toArr : JsValue → List JsValue
  | .arr vs => vs
  | _ => []

mutual

/-- JavaScript string conversion, as used by template-literal interpolation
(`${field}`). -/
def jsToString : JsValue → String
  | .null => "null"
  | JsValue.undef => "undefined"
  | .bool b => if b then "true" else "false"
  | .num n => toString n
  | .str s => s
  | .arr vs => jsJoinComma vs
  | .obj _ => "[object Object]"

/-- Element conversion inside `Array.prototype.join`: `null` and `undefined`
become the empty string. -/
def jsElemString : JsValue → String
  | .null => ""
  | JsValue.undef => ""
  | .bool b => if b then "true" else "false"
  | .num n => toString n
  | .str s => s
  | .arr vs => jsJoinComma vs
  | .obj _ => "[object Object]"

/-- `Array.prototype.join(",")`. -/
def jsJoinComma : List JsValue → String
  | [] => ""
  | [v] => jsElemString v
  | v :: rest => jsElemString v ++ "," ++ jsJoinComma rest

end

/-- `Array.prototype.join(sep)` on a list of strings (used for
`parts.join(joiner)` and `placeholders.join(", ")` in the compiler). -/
def joinSep (sep : String) : List String → String
  | [] => ""
  | [a] => a
  | a :: b :: rest => a ++ sep ++ joinSep sep (b :: rest)

/- Size bounds justifying the recursion of the compiler over `JsValue`
(children of a node are structurally smaller than the node). -/

theorem sizeOf_lookupField_le (fields : List (String × JsValue)) (k : String) :
    sizeOf (lookupField fields k) ≤ sizeOf fields := by
  induction fields with
  | nil => simp [lookupField]
  | cons p rest ih =>
    obtain ⟨a, b⟩ := p
    rw [lookupField]
    by_cases hk : a == k
    · simp only [hk, if_true]
      simp
      omega
    · simp only [hk, if_false]
      simp
      omega

theorem sizeOf_getProp_lt (fields : List (String × JsValue)) (k : String) :
    sizeOf (getProp (.obj fields) k) < sizeOf (JsValue.obj fields) := by
  simp only [getProp]
  have := sizeOf_lookupField_le fields k
  simp
  omega

theorem sizeOf_toArr_le (v : JsValue) : sizeOf (toArr v) ≤ sizeOf v := by
  cases v <;> simp [toArr] <;> omega

theorem sizeOf_conditions_lt (k' : String) {node : JsValue} {k : String}
    (h : hasProp node k = true) :
    sizeOf (toArr (getProp node k')) < sizeOf node := by
  cases node with
  | obj fields =>
    have h1 := sizeOf_getProp_lt fields k'
    have h2 := sizeOf_toArr_le (getProp (.obj fields) k')
    omega
  | _ => simp [hasProp] at h

theorem sizeOf_child_lt {node c : JsValue} {k k' : String} (h : hasProp node k = true)
    (hm : c ∈ toArr (getProp node k')) : sizeOf c < sizeOf node := by
  have h1 := List.sizeOf_lt_of_mem hm
  have h2 := sizeOf_conditions_lt k' h
  omega

/-- Result of compiling one condition node: the SQL fragment, the parameters
bound by it in order, and the next free placeholder index
(`{ sql, params, nextIndex }` in the source). -/
structure Built where
  sql : String
  params : List JsValue
  nextIndex : Nat
deriving Repr

/-- Accumulated state of the AND/OR child loop: the parenthesised non-empty
child fragments, the concatenated parameters, and the running index. -/
structure ChildrenBuilt where
  parts : List String
  params : List JsValue
  nextIndex : Nat
deriving Repr

/-- The `FieldCondition` branch of `buildConditionNode`
(`where.ts` lines 57-89).  `IN`/`NOT IN` read `value || []` and require an
array (`1 = 0` / `1 = 1` otherwise or when empty); `BETWEEN` destructures the
value pair (non-array values, which the `BetweenCondition` type rules out and
which would not produce a result in JavaScript, are mapped to `undefined`);
any other operator emits `IS NULL` for a `null` value and a single
placeholder otherwise. -/
def buildFieldCondition (node : JsValue) (startIndex : Nat) : Built :=
  let field := getProp node "field"
  let operator := getProp node "operator"
  if isStr operator "IN" || isStr operator "NOT IN" then
    let rawValue := getProp node "value"
    let values := if truthy rawValue then rawValue else .arr []
    match values with
    | .arr (v :: vs) =>
      let count := (v :: vs).length
      let placeholders := joinSep ", " ((List.range' startIndex count).map (fun n => "$" ++ toString n))
      ⟨jsToString field ++ " " ++ jsToString operator ++ " (" ++ placeholders ++ ")",
        v :: vs, startIndex + count⟩
    | _ => ⟨if isStr operator "IN" then "1 = 0" else "1 = 1", [], startIndex⟩
  else if isStr operator "BETWEEN" then
    let value := getProp node "value"
    ⟨jsToString field ++ " BETWEEN $" ++ toString startIndex ++ " AND $" ++ toString (startIndex + 1),
      [(toArr value).getD 0 JsValue.undef, (toArr value).getD 1 JsValue.undef], startIndex + 2⟩
  else
    let value := getProp node "value"
    if isNullV value then
      ⟨jsToString field ++ " IS NULL", [], startIndex⟩
    else
      ⟨jsToString field ++ " " ++ jsToString operator ++ " $" ++ toString startIndex,
        [value], startIndex + 1⟩

mutual

/-- `buildConditionNode` (`where.ts` lines 53-126): a node with a `type`
property is a logical condition (`NOT` compiles only its first child and
collapses when the child produced empty SQL; `AND`/everything else joins the
parenthesised non-empty children with the corresponding joiner), any other
node is a field condition. -/
def buildConditionNode (node : JsValue) (startIndex : Nat) : Built :=
  if h : hasProp node "type" then
    let t := getProp node "type"
    if isStr t "NOT" then
      match hc : toArr (getProp node "conditions") with
      | [] => ⟨"", [], startIndex⟩
      | child :: _rest =>
        let built := buildConditionNode child startIndex
        if built.sql == "" then ⟨"", [], built.nextIndex⟩
        else ⟨"NOT (" ++ built.sql ++ ")", built.params, built.nextIndex⟩
    else
      let joiner := if isStr t "AND" then " AND " else " OR "
      let r := buildChildren (toArr (getProp node "conditions")) startIndex
      ⟨joinSep joiner r.parts, r.params, r.nextIndex⟩
  else
    buildFieldCondition node startIndex
termination_by sizeOf node
decreasing_by
  all_goals first
    | exact sizeOf_child_lt h (by rw [hc]; exact List.mem_cons_self child _rest)
    | exact sizeOf_conditions_lt "conditions" h

/-- The `for (const child of logical.conditions)` loop of `buildConditionNode`
(`where.ts` lines 115-122): children whose SQL is empty are skipped and do not
advance the placeholder index. -/
def buildChildren (children : List JsValue) (currentIndex : Nat) : ChildrenBuilt :=
  match children with
  | [] => ⟨[], [], currentIndex⟩
  | c :: rest =>
    let b := buildConditionNode c currentIndex
    if b.sql == "" then buildChildren rest currentIndex
    else
      let r := buildChildren rest b.nextIndex
      ⟨("(" ++ b.sql ++ ")") :: r.parts, b.params ++ r.params, r.nextIndex⟩
termination_by sizeOf children
decreasing_by
  all_goals simp
  all_goals omega

end

/-- The object literal pushed by `recordToConditionNode` for one entry, and
also the shape produced by the `operators.ts` helpers: `{ field, operator,
value }`. -/
def mkFieldCondition (f : String) (op : String) (v : JsValue) : JsValue :=
  .obj [("field", .str f), ("operator", .str op), ("value", v)]

/-- `recordToConditionNode` (`where.ts` lines 16-48): `undefined` entries are
dropped, array values become `IN` conditions, everything else an `=`
condition; zero conditions yield no node, a single condition is returned
bare, several are wrapped in an `AND` node. -/
def recordToConditionNode (entries : List (String × JsValue)) : Option JsValue :=
  let fieldConditions := entries.filterMap (fun kv =>
    match kv.2 with
    | JsValue.undef => none
    | .arr vs => some (mkFieldCondition kv.1 "IN" (.arr vs))
    | v => some (mkFieldCondition kv.1 "=" v))
  match fieldConditions with
  | [] => none
  | [single] => some single
  | f1 :: f2 :: fs => some (.obj [("type", .str "AND"), ("conditions", .arr (f1 :: f2 :: fs))])

/-- `Object.entries`. -/
def entriesOf : JsValue → List (String × JsValue)
  | .obj fields => fields
  | .arr vs => ((List.range vs.length).zip vs).map (fun p => (toString p.1, p.2))
  | .str s => ((List.range s.length).zip s.toList).map (fun p => (toString p.1, .str (String.mk [p.2])))
  | _ => []

/-- `buildWhereClause` (`where.ts` lines 134-163): falsy input yields no
clause; an input with a truthy `type` or `field` property is taken to be an
already-built `ConditionNode`, otherwise the input is normalised as a flat
field map; a compiled empty SQL yields no clause, otherwise the fragment is
prefixed with `WHERE `. -/
def buildWhereClause (w : JsValue) (startIndex : Nat := 1) : String × List JsValue :=
  if truthy w = false then ("", [])
  else
    let conditionNode : Option JsValue :=
      if truthy (getProp w "type") || truthy (getProp w "field") then some w
      else recordToConditionNode (entriesOf w)
    match conditionNode with
    | none => ("", [])
    | some node =>
      let built := buildConditionNode node startIndex
      if built.sql == "" then ("", [])
      else ("WHERE " ++ built.sql, built.params)

/-- The flat-map normalisation path of `buildWhereClause` (lines 144-162)
applied unconditionally: what the function produces when it classifies its
input as a plain field map.  Used to state the misclassification claim. -/
def buildWhereClauseAsRecord (w : JsValue) (startIndex : Nat := 1) : String × List JsValue :=
  match recordToConditionNode (entriesOf w) with
  | none => ("", [])
  | some node =>
    let built := buildConditionNode node startIndex
    if built.sql == "" then ("", [])
    else ("WHERE " ++ built.sql, built.params)

/-- `and(...conditions)` of `conditions.ts`. -/
def andNode (conditions : List JsValue) : JsValue :=
  .obj [("type", .str "AND"), ("conditions", .arr conditions)]

/-- `or(...conditions)` of `conditions.ts`. -/
def orNode (conditions : List JsValue) : JsValue :=
  .obj [("type", .str "OR"), ("conditions", .arr conditions)]

/-- `not(...conditions)` of `conditions.ts`. -/
def notNode (conditions : List JsValue) : JsValue :=
  .obj [("type", .str "NOT"), ("conditions", .arr conditions)]

/-- `eq(field, value)` of `operators.ts`. -/
def eqCond (f : String) (v : JsValue) : JsValue := mkFieldCondition f "=" v

/-- `inArray(field, value)` of `operators.ts`. -/
def inArrayCond (f : String) (vs : List JsValue) : JsValue := mkFieldCondition f "IN" (.arr vs)

/-- `notInArray(field, value)` of `operators.ts`. -/
def notInArrayCond (f : String) (vs : List JsValue) : JsValue := mkFieldCondition f "NOT IN" (.arr vs)

/-- `between(field, from, to)` of `operators.ts`. -/
def betweenCond (f : String) (lo hi : JsValue) : JsValue := mkFieldCondition f "BETWEEN" (.arr [lo, hi])

/-! ### Token-level mirror of the compiler

To state the placeholder-numbering claim the SQL fragment is also produced as
a list of tokens, keeping every emitted placeholder `$n` separate from the
surrounding text.  The token builders mirror `buildConditionNode` step by
step; the correspondence theorems below prove that rendering the tokens
yields exactly the SQL string of the source embedding. -/

/-- One piece of an SQL fragment: literal text or a placeholder `$n`. -/
inductive Tok where
  | txt (s : String)
  | ph (n : Nat)
deriving Repr, DecidableEq

/-- Render one token to its SQL text. -/
def renderTok : Tok → String
  | .txt s => s
  | .ph n => "$" ++ toString n

/-- Render a token list to the SQL string it denotes. -/
def renderToks : List Tok → String
  | [] => ""
  | t :: ts => renderTok t ++ renderToks ts

/-- The placeholder numbers occurring in a token list, in order. -/
def phNums : List Tok → List Nat
  | [] => []
  | .ph n :: ts => n :: phNums ts
  | .txt _ :: ts => phNums ts

/-- Token form of the `", "`-joined placeholder run `$s, $(s+1), ...`
(`count` placeholders starting at `start`). -/
def phSeq (start : Nat) : Nat → List Tok
  | 0 => []
  | n + 1 =>
    match n with
    | 0 => [.ph start]
    | _ + 1 => .ph start :: .txt ", " :: phSeq (start + 1) n

/-- Token form of `parts.join(joiner)`. -/
def joinToks (j : String) : List (List Tok) → List Tok
  | [] => []
  | [p] => p
  | p :: q :: rest => p ++ .txt j :: joinToks j (q :: rest)

/-- Token-level result mirroring `Built`. -/
structure TBuilt where
  toks : List Tok
  params : List JsValue
  nextIndex : Nat
deriving Repr

/-- Token-level result mirroring `ChildrenBuilt`. -/
structure TChildren where
  parts : List (List Tok)
  params : List JsValue
  nextIndex : Nat
deriving Repr

/-- Token mirror of `buildFieldCondition`. -/
def buildFieldTokens (node : JsValue) (startIndex : Nat) : TBuilt :=
  let field := getProp node "field"
  let operator := getProp node "operator"
  if isStr operator "IN" || isStr operator "NOT IN" then
    let rawValue := getProp node "value"
    let values := if truthy rawValue then rawValue else .arr []
    match values with
    | .arr (v :: vs) =>
      let count := (v :: vs).length
      ⟨.txt (jsToString field ++ " " ++ jsToString operator ++ " (") ::
          phSeq startIndex count ++ [.txt ")"],
        v :: vs, startIndex + count⟩
    | _ => ⟨[.txt (if isStr operator "IN" then "1 = 0" else "1 = 1")], [], startIndex⟩
  else if isStr operator "BETWEEN" then
    let value := getProp node "value"
    ⟨[.txt (jsToString field ++ " BETWEEN "), .ph startIndex, .txt " AND ", .ph (startIndex + 1)],
      [(toArr value).getD 0 JsValue.undef, (toArr value).getD 1 JsValue.undef], startIndex + 2⟩
  else
    let value := getProp node "value"
    if isNullV value then
      ⟨[.txt (jsToString field ++ " IS NULL")], [], startIndex⟩
    else
      ⟨[.txt (jsToString field ++ " " ++ jsToString operator ++ " "), .ph startIndex],
        [value], startIndex + 1⟩

mutual

/-- Token mirror of `buildConditionNode`; branches on the same dynamic tests
and on emptiness of the rendered child SQL, so it follows exactly the same
control flow as the source embedding. -/
def buildConditionTokens (node : JsValue) (startIndex : Nat) : TBuilt :=
  if h : hasProp node "type" then
    let t := getProp node "type"
    if isStr t "NOT" then
      match hc : toArr (getProp node "conditions") with
      | [] => ⟨[], [], startIndex⟩
      | child :: _rest =>
        let built := buildConditionTokens child startIndex
        if renderToks built.toks == "" then ⟨[], [], built.nextIndex⟩
        else ⟨.txt "NOT (" :: built.toks ++ [.txt ")"], built.params, built.nextIndex⟩
    else
      let joiner := if isStr t "AND" then " AND " else " OR "
      let r := buildChildrenTokens (toArr (getProp node "conditions")) startIndex
      ⟨joinToks joiner r.parts, r.params, r.nextIndex⟩
  else
    buildFieldTokens node startIndex
termination_by sizeOf node
decreasing_by
  all_goals first
    | exact sizeOf_child_lt h (by rw [hc]; exact List.mem_cons_self child _rest)
    | exact sizeOf_conditions_lt "conditions" h

/-- Token mirror of `buildChildren`. -/
def buildChildrenTokens (children : List JsValue) (currentIndex : Nat) : TChildren :=
  match children with
  | [] => ⟨[], [], currentIndex⟩
  | c :: rest =>
    let b := buildConditionTokens c currentIndex
    if renderToks b.toks == "" then buildChildrenTokens rest currentIndex
    else
      let r := buildChildrenTokens rest b.nextIndex
      ⟨(.txt "(" :: b.toks ++ [.txt ")"]) :: r.parts, b.params ++ r.params, r.nextIndex⟩
termination_by sizeOf children
decreasing_by
  all_goals simp
  all_goals omega

end

/-- Token mirror of `buildWhereClause`. -/
def buildWhereTokens (w : JsValue) (startIndex : Nat := 1) : List Tok × List JsValue :=
  if truthy w = false then ([], [])
  else
    let conditionNode : Option JsValue :=
      if truthy (getProp w "type") || truthy (getProp w "field") then some w
      else recordToConditionNode (entriesOf w)
    match conditionNode with
    | none => ([], [])
    | some node =>
      let built := buildConditionTokens node startIndex
      if renderToks built.toks == "" then ([], [])
      else (.txt "WHERE " :: built.toks, built.params)

/-- Number of `$` characters in a string (each emitted placeholder contributes
exactly one, and dollar-free identifiers contribute none). -/
def countDollar (s : String) : Nat := s.toList.count '$'

mutual

/-- No string anywhere inside the value (string leaves and object keys)
contains a `$` character. -/
def dollarFree : JsValue → Bool
  | .null => true
  | JsValue.undef => true
  | .bool _ => true
  | .num _ => true
  | .str s => s.toList.count '$' == 0
  | .arr vs => dollarFreeList vs
  | .obj fs => dollarFreeFields fs

def dollarFreeList : List JsValue → Bool
  | [] => true
  | v :: vs => dollarFree v && dollarFreeList vs

def dollarFreeFields : List (String × JsValue) → Bool
  | [] => true
  | (k, v) :: fs => (k.toList.count '$' == 0) && dollarFree v && dollarFreeFields fs

end

/-- The values of the TypeScript type `ConditionNode`: field conditions built
from the operator vocabulary (`SingleValueCondition`, `InCondition`,
`BetweenCondition`) and logical `AND`/`OR`/`NOT` nodes over further
condition nodes.  The embedding is faithful to the source on exactly these
inputs (outside them the JavaScript code can throw). -/
inductive TypedNode : JsValue → Prop where
  | single (f : String) (op : String) (v : JsValue)
      (hop : op = "=" ∨ op = "!=" ∨ op = ">" ∨ op = "<" ∨ op = ">=" ∨ op = "<=" ∨ op = "LIKE") :
      TypedNode (mkFieldCondition f op v)
  | inCond (f : String) (vs : List JsValue) : TypedNode (inArrayCond f vs)
  | notInCond (f : String) (vs : List JsValue) : TypedNode (notInArrayCond f vs)
  | between (f : String) (lo hi : JsValue) : TypedNode (betweenCond f lo hi)
  | logical (t : String) (cs : List JsValue)
      (ht : t = "AND" ∨ t = "OR" ∨ t = "NOT")
      (hcs : ∀ c ∈ cs, TypedNode c) :
      TypedNode (.obj [("type", .str t), ("conditions", .arr cs)])

/-! ### Transaction handler (`src/utils/transaction.ts`) -/

/-- `isDbError` (`DbError.ts` lines 82-87): a non-null object value carrying a
`code` or `sqlState` property.  (A `DatabaseError` instance also carries both
properties, so the `instanceof` disjunct is subsumed by the structural test.) -/
def isDbError (e : JsValue) : Bool :=
  match e with
  | .obj fields => fields.any (fun p => p.1 == "code" || p.1 == "sqlState")
  | _ => false

/-- The `DatabaseError` constructor (`DbError.ts` lines 48-76): copies the
vendor diagnostic fields from the wrapped error, sets `sqlState` from the
source error's `code` and `sqlMessage` from its `message`, and keeps the
stack only when the source error has one. -/
def wrapDbError (e : JsValue) : JsValue :=
  .obj ([("message", if truthy (getProp e "message") then getProp e "message"
            else .str "Database error occurred"),
    ("name", .str "DatabaseError"),
    ("code", getProp e "code"),
    ("detail", getProp e "detail"),
    ("hint", getProp e "hint"),
    ("position", getProp e "position"),
    ("internalPosition", getProp e "internalPosition"),
    ("internalQuery", getProp e "internalQuery"),
    ("where", getProp e "where"),
    ("schema", getProp e "schema"),
    ("table", getProp e "table"),
    ("column", getProp e "column"),
    ("dataType", getProp e "dataType"),
    ("constraint", getProp e "constraint"),
    ("file", getProp e "file"),
    ("line", getProp e "line"),
    ("routine", getProp e "routine"),
    ("severity", getProp e "severity"),
    ("sqlState", getProp e "code"),
    ("sqlMessage", getProp e "message")] ++
    (if truthy (getProp e "stack") then [("stack", getProp e "stack")] else []))

/-- The four policy flags read by `handler`.  The interface file
(`HandlerOption.ts`) is not part of the sources; the flags and their meaning
are taken from their use in `transaction.ts` and from the spec's policy
record.  The source calls the first flag `throwError`; that word is reserved
here, so the field carries the spec's name `throwOnError`. -/
structure HandlerOption where
  throwOnError : Bool
  printSqlError : Bool
  rollbackIfError : Bool
  useTransaction : Bool

/-- The default option value of `handler` (`transaction.ts` lines 18-23). -/
def defaultHandlerOption : HandlerOption :=
  { throwOnError := true, printSqlError := true, rollbackIfError := true, useTransaction := true }

/-- Outcome of each external interaction performed by one `handler` run:
whether a connection could be acquired, and the result of `BEGIN`, of the
unit of work, of `COMMIT` and of `ROLLBACK` (thrown JavaScript values are
`JsValue`s). -/
structure DbEnv (T : Type) where
  connAvailable : Bool
  beginResult : Except JsValue Unit
  workResult : Except JsValue T
  commitResult : Except JsValue Unit
  rollbackResult : Except JsValue Unit

/-- Observable events of one `handler` run, in order. -/
inductive HEvent where
  | qBegin
  | qCommit
  | qRollback
  | logRollbackFailure
  | logSqlDiagnostic
  | refreshLastUse
  | release
deriving Repr, DecidableEq

/-- How one `handler` run resolves: with the work's value, with `null`, or by
raising an exception to the caller. -/
inductive HResult (T : Type) where
  | value (t : T)
  | nullResult
  | thrown (e : JsValue)
deriving Repr

/-- A plain `new Error(msg)` value. -/
def jsError (msg : String) : JsValue :=
  .obj [("name", .str "Error"), ("message", .str msg)]

/-- The `catch (e)` block of `handler` (`transaction.ts` lines 51-96) followed
by the `finally` block (lines 97-101): optional ROLLBACK (its own failure is
only logged), the structured SQL diagnostic for database-classified errors
under `printSqlError`, resolution per `throwError` (database errors are
rethrown wrapped in `DatabaseError`), and the guaranteed refresh-and-release
cleanup. -/
def handlerCatch {T : Type} (env : DbEnv T) (opt : HandlerOption) (e : JsValue) :
    HResult T × List HEvent :=
  let rbTrace : List HEvent :=
    if opt.useTransaction && opt.rollbackIfError then
      match env.rollbackResult with
      | .ok _ => [.qRollback]
      | .error _ => [.qRollback, .logRollbackFailure]
    else []
  let diagTrace : List HEvent :=
    if isDbError e && opt.printSqlError then [.logSqlDiagnostic] else []
  let res : HResult T :=
    if isDbError e then
      if opt.throwOnError then .thrown (wrapDbError e) else .nullResult
    else
      if opt.throwOnError then .thrown e else .nullResult
  (res, rbTrace ++ diagTrace ++ [.refreshLastUse, .release])

/-- `handler` (`transaction.ts` lines 16-102) as a function of the
environment: no connection resolves per policy with nothing released; a
`BEGIN` failure releases the connection (without refreshing its timestamp)
and resolves per policy; otherwise the unit of work runs, `COMMIT` follows on
success under `useTransaction` (a `COMMIT` failure falls into the same catch
block as a work failure), and the `finally` cleanup refreshes the last-used
timestamp and releases the connection. -/
def handler {T : Type} (env : DbEnv T) (opt : HandlerOption) : HResult T × List HEvent :=
  if env.connAvailable = false then
    (if opt.throwOnError then .thrown (jsError "Failed to get database connection")
      else .nullResult, [])
  else if opt.useTransaction then
    match env.beginResult with
    | .error be =>
      (if opt.throwOnError then .thrown be else .nullResult, [.qBegin, .release])
    | .ok _ =>
      match env.workResult with
      | .ok v =>
        match env.commitResult with
        | .ok _ => (.value v, [.qBegin, .qCommit, .refreshLastUse, .release])
        | .error ce =>
          let c := handlerCatch env opt ce
          (c.1, .qBegin :: .qCommit :: c.2)
      | .error we =>
        let c := handlerCatch env opt we
        (c.1, .qBegin :: c.2)
  else
    match env.workResult with
    | .ok v => (.value v, [.refreshLastUse, .release])
    | .error we =>
      let c := handlerCatch env opt we
      (c.1, c.2)

/-- `BEGIN` failed in this environment. -/
def beginFails {T : Type} (env : DbEnv T) : Bool :=
  match env.beginResult with
  | .error _ => true
  | .ok _ => false

/-! ### Connection retry loop (`src/utils/connection.ts`) -/

/-- What `getConnection` can observe about a thrown acquisition failure:
whether it is an `Error` instance, its message, and its optional vendor
`code`. -/
structure ThrownErr where
  isErrorInstance : Bool
  message : String
  code : Option String
deriving Repr, DecidableEq

/-- `String.prototype.includes`. -/
def strIncludes (s pat : String) : Bool :=
  s.toList.tails.any (fun t => pat.toList.isPrefixOf t)

/-- The too-many-connections classification (`connection.ts` lines 73-77). -/
def isTooManyConnections (e : ThrownErr) : Bool :=
  e.isErrorInstance &&
    (strIncludes e.message "too many clients" ||
      strIncludes e.message "connection limit" ||
      e.code == some "53300")

/-- The connection-lost classification (`connection.ts` lines 79-86). -/
def isConnectionLost (e : ThrownErr) : Bool :=
  e.isErrorInstance &&
    (e.code == some "57P01" ||
      e.code == some "57P02" ||
      e.code == some "57P03" ||
      strIncludes e.message "Connection terminated" ||
      strIncludes e.message "Connection is dead" ||
      strIncludes e.message "server closed the connection")

/-- Outcome of one acquisition attempt: `pool.connect()` succeeded and the
liveness probe passed; `pool.connect()` threw; or the probe failed (the
client is released and `Error("Connection is dead, retrying...")` is
thrown). -/
inductive AttemptOutcome where
  | success
  | connectError (e : ThrownErr)
  | pingError
deriving Repr, DecidableEq

/-- The error reaching the `catch` block for one attempt outcome, if any. -/
def thrownOf : AttemptOutcome → Option ThrownErr
  | .success => none
  | .connectError e => some e
  | .pingError => some ⟨true, "Connection is dead, retrying...", none⟩

/-- The retry loop of `getConnection` (`connection.ts` lines 51-161), from a
given attempt number: a successful attempt returns a connection; a failure on
the last attempt, or any failure that is neither a too-many-connections nor a
connection-lost signature, fails immediately; otherwise the loop sleeps
`baseDelay * 2 ^ attempt` and retries.  Returns whether a connection was
obtained and the list of backoff delays slept, in order. -/
def getConnectionFrom (outcomes : Nat → AttemptOutcome) (maxRetries baseDelay attempt : Nat) :
    Bool × List Nat :=
  if _h : attempt ≤ maxRetries then
    match thrownOf (outcomes attempt) with
    | none => (true, [])
    | some e =>
      let tooMany := isTooManyConnections e
      let lost := isConnectionLost e
      if _hl : attempt == maxRetries || (!tooMany && !lost) then (false, [])
      else
        let delay := baseDelay * 2 ^ attempt
        let r := getConnectionFrom outcomes maxRetries baseDelay (attempt + 1)
        (r.1, delay :: r.2)
  else (false, [])
termination_by maxRetries + 1 - attempt
decreasing_by
  simp at _hl
  omega

/-- `config.connectionRetryCount || 3` (`connection.ts` line 48): an absent or
zero configured count falls back to 3. -/
def resolveRetryCount : Option Nat → Nat
  | none => 3
  | some n => if n = 0 then 3 else n

/-- `config.connectionRetryDelay || 1000` (`connection.ts` line 49). -/
def resolveRetryDelay : Option Nat → Nat
  | none => 1000
  | some n => if n = 0 then 1000 else n

/-- `getConnection` (`connection.ts` lines 45-162): the retry loop started at
attempt 0 with the resolved configuration. -/
def getConnection (outcomes : Nat → AttemptOutcome)
    (cfgRetryCount cfgRetryDelay : Option Nat) : Bool × List Nat :=
  getConnectionFrom outcomes (resolveRetryCount cfgRetryCount) (resolveRetryDelay cfgRetryDelay) 0

/-! ## Derived equations of the compiler

Constructor-headed unfolding equations for the well-founded recursive
definitions, used both for the general theorems and to evaluate the compiler
on concrete inputs. -/

theorem hasProp_logical (t : String) (cs : List JsValue) :
    hasProp (.obj [("type", .str t), ("conditions", .arr cs)]) "type" = true := by
  simp [hasProp]

theorem bcn_not_nil (i : Nat) :
    buildConditionNode (.obj [("type", .str "NOT"), ("conditions", .arr [])]) i =
      ⟨"", [], i⟩ := by
  rw [buildConditionNode]
  simp only [hasProp_logical, getProp, lookupField, isStr, dite_true, if_true, beq_self_eq_true]
  split
  · rfl
  · rename_i child rest hc
    simp [toArr, lookupField] at hc

theorem bcn_not_cons (c : JsValue) (cs : List JsValue) (i : Nat) :
    buildConditionNode (.obj [("type", .str "NOT"), ("conditions", .arr (c :: cs))]) i =
      (let built := buildConditionNode c i
       if built.sql == "" then ⟨"", [], built.nextIndex⟩
       else ⟨"NOT (" ++ built.sql ++ ")", built.params, built.nextIndex⟩) := by
  rw [buildConditionNode]
  simp only [hasProp_logical, getProp, lookupField, isStr, dite_true, if_true, beq_self_eq_true]
  split
  · rename_i hc
    simp [toArr, lookupField] at hc
  · rename_i child rest hc
    simp only [reduceIte, toArr, lookupField] at hc
    simp at hc
    obtain ⟨rfl, rfl⟩ := hc
    rfl

theorem bcn_andor (t : String) (cs : List JsValue) (i : Nat) (h : (t == "NOT") = false) :
    buildConditionNode (.obj [("type", .str t), ("conditions", .arr cs)]) i =
      (let joiner := if t == "AND" then " AND " else " OR "
       let r := buildChildren cs i
       ⟨joinSep joiner r.parts, r.params, r.nextIndex⟩) := by
  rw [buildConditionNode]
  simp only [hasProp_logical, getProp, lookupField, isStr, dite_true, h,
    if_false, Bool.false_eq_true, toArr]
  simp [h, lookupField, toArr]

theorem bcn_leaf (node : JsValue) (i : Nat) (h : hasProp node "type" = false) :
    buildConditionNode node i = buildFieldCondition node i := by
  rw [buildConditionNode]
  simp [h]

theorem buildChildren_nil (i : Nat) : buildChildren [] i = ⟨[], [], i⟩ := by
  rw [buildChildren]

theorem buildChildren_cons (c : JsValue) (rest : List JsValue) (i : Nat) :
    buildChildren (c :: rest) i =
      (let b := buildConditionNode c i
       if b.sql == "" then buildChildren rest i
       else
         let r := buildChildren rest b.nextIndex
         ⟨("(" ++ b.sql ++ ")") :: r.parts, b.params ++ r.params, r.nextIndex⟩) := by
  rw [buildChildren]

theorem bct_not_nil (i : Nat) :
    buildConditionTokens (.obj [("type", .str "NOT"), ("conditions", .arr [])]) i =
      ⟨[], [], i⟩ := by
  rw [buildConditionTokens]
  simp only [hasProp_logical, getProp, lookupField, isStr, dite_true, if_true, beq_self_eq_true]
  split
  · rfl
  · rename_i child rest hc
    simp [toArr, lookupField] at hc

theorem bct_not_cons (c : JsValue) (cs : List JsValue) (i : Nat) :
    buildConditionTokens (.obj [("type", .str "NOT"), ("conditions", .arr (c :: cs))]) i =
      (let built := buildConditionTokens c i
       if renderToks built.toks == "" then ⟨[], [], built.nextIndex⟩
       else ⟨.txt "NOT (" :: built.toks ++ [.txt ")"], built.params, built.nextIndex⟩) := by
  rw [buildConditionTokens]
  simp only [hasProp_logical, getProp, lookupField, isStr, dite_true, if_true, beq_self_eq_true]
  split
  · rename_i hc
    simp [toArr, lookupField] at hc
  · rename_i child rest hc
    simp only [reduceIte, toArr, lookupField] at hc
    simp at hc
    obtain ⟨rfl, rfl⟩ := hc
    rfl

theorem bct_andor (t : String) (cs : List JsValue) (i : Nat) (h : (t == "NOT") = false) :
    buildConditionTokens (.obj [("type", .str t), ("conditions", .arr cs)]) i =
      (let joiner := if t == "AND" then " AND " else " OR "
       let r := buildChildrenTokens cs i
       ⟨joinToks joiner r.parts, r.params, r.nextIndex⟩) := by
  rw [buildConditionTokens]
  simp only [hasProp_logical, getProp, lookupField, isStr, dite_true, h,
    if_false, Bool.false_eq_true, toArr]
  simp [h, lookupField, toArr]

theorem bct_leaf (node : JsValue) (i : Nat) (h : hasProp node "type" = false) :
    buildConditionTokens node i = buildFieldTokens node i := by
  rw [buildConditionTokens]
  simp [h]

theorem buildChildrenTokens_nil (i : Nat) : buildChildrenTokens [] i = ⟨[], [], i⟩ := by
  rw [buildChildrenTokens]

theorem buildChildrenTokens_cons (c : JsValue) (rest : List JsValue) (i : Nat) :
    buildChildrenTokens (c :: rest) i =
      (let b := buildConditionTokens c i
       if renderToks b.toks == "" then buildChildrenTokens rest i
       else
         let r := buildChildrenTokens rest b.nextIndex
         ⟨(.txt "(" :: b.toks ++ [.txt ")"]) :: r.parts, b.params ++ r.params, r.nextIndex⟩) := by
  rw [buildChildrenTokens]

theorem getProp_mkFieldCondition_field (f op : String) (v : JsValue) :
    getProp (mkFieldCondition f op v) "field" = .str f := by
  simp [getProp, mkFieldCondition, lookupField]

theorem getProp_mkFieldCondition_operator (f op : String) (v : JsValue) :
    getProp (mkFieldCondition f op v) "operator" = .str op := by
  simp [getProp, mkFieldCondition, lookupField]

theorem getProp_mkFieldCondition_value (f op : String) (v : JsValue) :
    getProp (mkFieldCondition f op v) "value" = v := by
  simp [getProp, mkFieldCondition, lookupField]

theorem hasProp_mkFieldCondition_type (f op : String) (v : JsValue) :
    hasProp (mkFieldCondition f op v) "type" = false := by
  simp [hasProp, mkFieldCondition]

theorem append_ne_empty_right (a : String) {b : String} (h : ¬ b = "") :
    ¬ (a ++ b) = "" := by
  intro he
  apply h
  have h2 := congrArg String.length he
  rw [String.length_append] at h2
  have hb : b.length = 0 := by
    have : ("" : String).length = 0 := rfl
    omega
  cases b with
  | mk data =>
    cases data with
    | nil => rfl
    | cons c cs => simp [String.length, List.length] at hb

theorem append_beq_empty_false (a : String) {b : String} (h : ¬ b = "") :
    ((a ++ b) == "") = false := by
  rw [beq_eq_false_iff_ne]
  exact append_ne_empty_right a h

/-! ## C5: the flat-map compilation scenario -/

/-- Evaluation of the spec's flat-map scenario on the embedding: the
`undefined` entry is dropped, the two remaining conditions are AND-joined
with each conjunct parenthesised. -/
theorem buildWhereClause_flatmap_example :
    buildWhereClause (.obj [("id", .num 5), ("name", JsValue.undef), ("tags", .arr [.num 1, .num 2])]) 1 =
      ("WHERE (id = $1) AND (tags IN ($2, $3))", [.num 5, .num 1, .num 2]) := by
  simp [buildWhereClause, bcn_andor, bcn_leaf, buildChildren_cons, buildChildren_nil,
    buildFieldCondition, recordToConditionNode, entriesOf, getProp, hasProp, truthy,
    isStr, isNullV, toArr, jsToString, mkFieldCondition, lookupField]
  and_intros <;> rfl

/-- C5, counterexample: compiling the flat map
`{id: 5, name: undefined, tags: [1,2]}` with `startIndex = 1` does not yield
the claimed sql `WHERE id = $1 AND tags IN ($2, $3)`: the code parenthesises
every conjunct of an AND node. -/
theorem flatmap_scenario_claim_false :
    buildWhereClause (.obj [("id", .num 5), ("name", JsValue.undef), ("tags", .arr [.num 1, .num 2])]) 1 ≠
      ("WHERE id = $1 AND tags IN ($2, $3)", [.num 5, .num 1, .num 2]) := by
  rw [buildWhereClause_flatmap_example]
  intro h
  have h1 := congrArg Prod.fst h
  simp only [] at h1
  exact absurd h1 (by decide)

/-- C5, amended: compiling the flat map `{id: 5, name: undefined, tags: [1,2]}`
with `startIndex = 1` yields sql exactly `WHERE (id = $1) AND (tags IN ($2, $3))`
and params exactly `[5, 1, 2]`: the `undefined`-valued key contributes neither
a clause nor a parameter, the array-valued key becomes an IN list in order,
and the remaining entries are AND-joined with each conjunct parenthesised. -/
theorem flatmap_scenario_amended :
    buildWhereClause (.obj [("id", .num 5), ("name", JsValue.undef), ("tags", .arr [.num 1, .num 2])]) 1 =
      ("WHERE (id = $1) AND (tags IN ($2, $3))", [.num 5, .num 1, .num 2]) :=
  buildWhereClause_flatmap_example

/-! ## C9: shape-sniffing misclassification -/

/-- C9: the plain filter map `{field: "x"}` — a truthy value under a key
literally named `field` — is misclassified by `buildWhereClause` as an
already-built `ConditionNode`: it compiles to `WHERE x undefined $1` binding
`[undefined]`, whereas the flat-map normalisation of the same input compiles
to `WHERE field = $1` binding `["x"]`; the two outputs differ. -/
theorem misclassified_field_key_map :
    buildWhereClause (.obj [("field", .str "x")]) 1 = ("WHERE x undefined $1", [JsValue.undef]) ∧
    buildWhereClauseAsRecord (.obj [("field", .str "x")]) 1 = ("WHERE field = $1", [.str "x"]) ∧
    (buildWhereClause (.obj [("field", .str "x")]) 1).1 ≠
      (buildWhereClauseAsRecord (.obj [("field", .str "x")]) 1).1 := by
  have h1 : buildWhereClause (.obj [("field", .str "x")]) 1 =
      ("WHERE x undefined $1", [JsValue.undef]) := by
    simp [buildWhereClause, bcn_leaf, buildFieldCondition, getProp, hasProp, truthy,
      isStr, isNullV, toArr, jsToString, lookupField]
    rfl
  have h2 : buildWhereClauseAsRecord (.obj [("field", .str "x")]) 1 =
      ("WHERE field = $1", [.str "x"]) := by
    simp [buildWhereClauseAsRecord, bcn_leaf, buildFieldCondition, recordToConditionNode,
      entriesOf, getProp, hasProp, truthy, isStr, isNullV, toArr, jsToString,
      mkFieldCondition, lookupField]
    rfl
  refine ⟨h1, h2, ?_⟩
  rw [h1, h2]
  decide

/-! ## C6: empty-collection semantics -/

/-- C6: for every field name and start index, an `IN` condition with an empty
list compiles to the constant-false `1 = 0` with no parameters and no index
consumed; `NOT IN` with an empty list compiles to the constant-true `1 = 1`
likewise; an `AND` or `OR` node with zero children compiles to empty SQL with
no parameters; and such an empty logical node nested inside another `AND`/`OR`
node is skipped by the parent without consuming parameters or indices. -/
theorem empty_collection_semantics :
    (∀ (f : String) (i : Nat), buildConditionNode (inArrayCond f []) i = ⟨"1 = 0", [], i⟩) ∧
    (∀ (f : String) (i : Nat), buildConditionNode (notInArrayCond f []) i = ⟨"1 = 1", [], i⟩) ∧
    (∀ (t : String) (i : Nat), t = "AND" ∨ t = "OR" →
      buildConditionNode (.obj [("type", .str t), ("conditions", .arr [])]) i = ⟨"", [], i⟩) ∧
    (∀ (t t' : String) (cs : List JsValue) (i : Nat),
      t = "AND" ∨ t = "OR" → t' = "AND" ∨ t' = "OR" →
      buildConditionNode (.obj [("type", .str t), ("conditions", .arr
          (.obj [("type", .str t'), ("conditions", .arr [])] :: cs))]) i =
        buildConditionNode (.obj [("type", .str t), ("conditions", .arr cs)]) i) := by
  have hin : ∀ (f : String) (i : Nat),
      buildConditionNode (inArrayCond f []) i = ⟨"1 = 0", [], i⟩ := by
    intro f i
    rw [inArrayCond, bcn_leaf _ _ (hasProp_mkFieldCondition_type _ _ _)]
    simp [buildFieldCondition, getProp_mkFieldCondition_field,
      getProp_mkFieldCondition_operator, getProp_mkFieldCondition_value, isStr, truthy]
  have hnotin : ∀ (f : String) (i : Nat),
      buildConditionNode (notInArrayCond f []) i = ⟨"1 = 1", [], i⟩ := by
    intro f i
    rw [notInArrayCond, bcn_leaf _ _ (hasProp_mkFieldCondition_type _ _ _)]
    simp [buildFieldCondition, getProp_mkFieldCondition_field,
      getProp_mkFieldCondition_operator, getProp_mkFieldCondition_value, isStr, truthy]
  have hempty : ∀ (t : String) (i : Nat), t = "AND" ∨ t = "OR" →
      buildConditionNode (.obj [("type", .str t), ("conditions", .arr [])]) i = ⟨"", [], i⟩ := by
    intro t i ht
    have hne : (t == "NOT") = false := by rcases ht with rfl | rfl <;> decide
    rw [bcn_andor _ _ _ hne]
    simp [buildChildren_nil, joinSep]
  refine ⟨hin, hnotin, hempty, ?_⟩
  intro t t' cs i ht ht'
  have hne : (t == "NOT") = false := by rcases ht with rfl | rfl <;> decide
  rw [bcn_andor _ _ _ hne, bcn_andor _ _ _ hne]
  rw [buildChildren_cons]
  simp [hempty t' i ht']

/-- C6, witness. -/
theorem empty_collection_semantics_witness :
    buildConditionNode (inArrayCond "a" []) 4 = ⟨"1 = 0", [], 4⟩ ∧
    buildConditionNode (notInArrayCond "a" []) 4 = ⟨"1 = 1", [], 4⟩ ∧
    buildConditionNode (.obj [("type", .str "OR"), ("conditions", .arr [])]) 4 = ⟨"", [], 4⟩ ∧
    buildConditionNode (.obj [("type", .str "AND"), ("conditions", .arr
        (.obj [("type", .str "OR"), ("conditions", .arr [])] :: [inArrayCond "a" []]))]) 4 =
      buildConditionNode (.obj [("type", .str "AND"),
        ("conditions", .arr [inArrayCond "a" []])]) 4 :=
  ⟨empty_collection_semantics.1 "a" 4,
    empty_collection_semantics.2.1 "a" 4,
    empty_collection_semantics.2.2.1 "OR" 4 (Or.inr rfl),
    empty_collection_semantics.2.2.2 "AND" "OR" [inArrayCond "a" []] 4 (Or.inl rfl) (Or.inr rfl)⟩

/-! ## C7: NOT-node semantics -/

/-- C7: a `NOT` node compiles only its first child (extra children are
ignored); zero children produce empty SQL; a child compiling to empty SQL
makes the `NOT` empty as well; otherwise the result wraps the child as
`NOT (child_sql)`.  In particular `compile(not(inArray("x", [])))` yields
`WHERE NOT (1 = 0)` with no parameters. -/
theorem not_node_semantics :
    (∀ (c : JsValue) (extra : List JsValue) (i : Nat),
      buildConditionNode (notNode (c :: extra)) i = buildConditionNode (notNode [c]) i) ∧
    (∀ i : Nat, buildConditionNode (notNode []) i = ⟨"", [], i⟩) ∧
    (∀ (c : JsValue) (i : Nat), (buildConditionNode c i).sql = "" →
      buildConditionNode (notNode [c]) i = ⟨"", [], (buildConditionNode c i).nextIndex⟩) ∧
    (∀ (c : JsValue) (i : Nat), (buildConditionNode c i).sql ≠ "" →
      buildConditionNode (notNode [c]) i =
        ⟨"NOT (" ++ (buildConditionNode c i).sql ++ ")", (buildConditionNode c i).params,
          (buildConditionNode c i).nextIndex⟩) ∧
    buildWhereClause (notNode [inArrayCond "x" []]) 1 = ("WHERE NOT (1 = 0)", []) := by
  refine ⟨?_, ?_, ?_, ?_, ?_⟩
  · intro c extra i
    rw [notNode, notNode, bcn_not_cons, bcn_not_cons]
  · intro i
    rw [notNode, bcn_not_nil]
  · intro c i h
    rw [notNode, bcn_not_cons]
    simp [h]
  · intro c i h
    rw [notNode, bcn_not_cons]
    simp [h]
  · simp [buildWhereClause, notNode, bcn_not_cons, bcn_leaf, buildFieldCondition,
      inArrayCond, getProp, hasProp, truthy, isStr, isNullV, toArr, jsToString,
      mkFieldCondition, lookupField]

/-- C7, witness. -/
theorem not_node_semantics_witness :
    buildConditionNode (notNode [inArrayCond "a" [], eqCond "b" (.num 1)]) 2 =
      buildConditionNode (notNode [inArrayCond "a" []]) 2 ∧
    buildConditionNode (notNode []) 2 = ⟨"", [], 2⟩ ∧
    (buildConditionNode (notNode []) 2).sql = "" ∧
    buildConditionNode (notNode [notNode []]) 2 =
      ⟨"", [], (buildConditionNode (notNode []) 2).nextIndex⟩ ∧
    (buildConditionNode (inArrayCond "a" []) 2).sql ≠ "" ∧
    buildConditionNode (notNode [inArrayCond "a" []]) 2 =
      ⟨"NOT (" ++ (buildConditionNode (inArrayCond "a" []) 2).sql ++ ")",
        (buildConditionNode (inArrayCond "a" []) 2).params,
        (buildConditionNode (inArrayCond "a" []) 2).nextIndex⟩ ∧
    buildWhereClause (notNode [inArrayCond "x" []]) 1 = ("WHERE NOT (1 = 0)", []) := by
  have hsql : (buildConditionNode (notNode []) 2).sql = "" := by
    rw [not_node_semantics.2.1 2]
  have hval : buildConditionNode (inArrayCond "a" []) 2 = ⟨"1 = 0", [], 2⟩ := by
    rw [inArrayCond, bcn_leaf _ _ (hasProp_mkFieldCondition_type _ _ _)]
    simp [buildFieldCondition, getProp_mkFieldCondition_field,
      getProp_mkFieldCondition_operator, getProp_mkFieldCondition_value, isStr, truthy]
  have hnonempty : (buildConditionNode (inArrayCond "a" []) 2).sql ≠ "" := by
    rw [hval]
    decide
  exact ⟨not_node_semantics.1 (inArrayCond "a" []) [eqCond "b" (.num 1)] 2,
    not_node_semantics.2.1 2,
    hsql,
    not_node_semantics.2.2.1 (notNode []) 2 hsql,
    hnonempty,
    not_node_semantics.2.2.2.1 (inArrayCond "a" []) 2 hnonempty,
    not_node_semantics.2.2.2.2⟩

/-! ## C8: null values in the equality family -/

/-- C8: for every field and every equality-family operator, a leaf condition
with a `null` value compiles to `field IS NULL` with zero parameters and no
placeholder consumed; a non-null value compiles to `field OP $n` with exactly
one parameter; and a flat-map entry with a `null` value (normalised to an
equality condition) also compiles to `IS NULL`. -/
theorem null_value_is_null :
    (∀ (f op : String) (i : Nat),
      op = "=" ∨ op = "!=" ∨ op = ">" ∨ op = "<" ∨ op = ">=" ∨ op = "<=" ∨ op = "LIKE" →
      buildConditionNode (mkFieldCondition f op .null) i = ⟨f ++ " IS NULL", [], i⟩) ∧
    (∀ (f op : String) (i : Nat) (v : JsValue),
      op = "=" ∨ op = "!=" ∨ op = ">" ∨ op = "<" ∨ op = ">=" ∨ op = "<=" ∨ op = "LIKE" →
      isNullV v = false →
      buildConditionNode (mkFieldCondition f op v) i =
        ⟨f ++ " " ++ op ++ " $" ++ toString i, [v], i + 1⟩) ∧
    (∀ (k : String) (i : Nat),
      buildWhereClause (.obj [(k, .null)]) i = ("WHERE " ++ k ++ " IS NULL", [])) := by
  have hops : ∀ op : String,
      op = "=" ∨ op = "!=" ∨ op = ">" ∨ op = "<" ∨ op = ">=" ∨ op = "<=" ∨ op = "LIKE" →
      (isStr (.str op) "IN" = false) ∧ (isStr (.str op) "NOT IN" = false) ∧
        (isStr (.str op) "BETWEEN" = false) := by
    intro op h
    rcases h with rfl | rfl | rfl | rfl | rfl | rfl | rfl <;> exact ⟨rfl, rfl, rfl⟩
  have hnull : ∀ (f op : String) (i : Nat),
      op = "=" ∨ op = "!=" ∨ op = ">" ∨ op = "<" ∨ op = ">=" ∨ op = "<=" ∨ op = "LIKE" →
      buildConditionNode (mkFieldCondition f op .null) i = ⟨f ++ " IS NULL", [], i⟩ := by
    intro f op i h
    obtain ⟨h1, h2, h3⟩ := hops op h
    rw [bcn_leaf _ _ (hasProp_mkFieldCondition_type _ _ _)]
    simp [buildFieldCondition, getProp_mkFieldCondition_field,
      getProp_mkFieldCondition_operator, getProp_mkFieldCondition_value,
      h1, h2, h3, isNullV, jsToString]
  refine ⟨hnull, ?_, ?_⟩
  · intro f op i v h hv
    obtain ⟨h1, h2, h3⟩ := hops op h
    rw [bcn_leaf _ _ (hasProp_mkFieldCondition_type _ _ _)]
    simp [buildFieldCondition, getProp_mkFieldCondition_field,
      getProp_mkFieldCondition_operator, getProp_mkFieldCondition_value,
      h1, h2, h3, hv, jsToString]
  · intro k i
    have htype : truthy (getProp (.obj [(k, .null)]) "type") = false := by
      by_cases hk : k == "type" <;> simp [getProp, lookupField, hk, truthy]
    have hfield : truthy (getProp (.obj [(k, .null)]) "field") = false := by
      by_cases hk : k == "field" <;> simp [getProp, lookupField, hk, truthy]
    rw [buildWhereClause]
    simp only [show truthy (JsValue.obj [(k, JsValue.null)]) = true from rfl,
      htype, hfield, Bool.or_self]
    simp only [reduceIte, Bool.false_eq_true, if_false]
    simp only [recordToConditionNode, entriesOf, List.filterMap]
    rw [hnull k "=" i (Or.inl rfl)]
    simp only [append_beq_empty_false k (show ¬ (" IS NULL" : String) = "" by decide),
      Bool.false_eq_true, if_false]
    simp [String.append_assoc]

/-- C8, witness. -/
theorem null_value_is_null_witness :
    buildConditionNode (mkFieldCondition "a" "<=" .null) 3 = ⟨"a IS NULL", [], 3⟩ ∧
    buildConditionNode (mkFieldCondition "a" "LIKE" (.str "x%")) 3 =
      ⟨"a LIKE $3", [.str "x%"], 4⟩ ∧
    buildWhereClause (.obj [("b", .null)]) 1 = ("WHERE b IS NULL", []) := by
  refine ⟨null_value_is_null.1 "a" "<=" 3 (by tauto), ?_, null_value_is_null.2.2 "b" 1⟩
  have h := null_value_is_null.2.1 "a" "LIKE" 3 (.str "x%") (by tauto) rfl
  rw [h]
  rfl

/-! ## C2, C3, C10: the transaction handler -/

theorem handlerCatch_counts {T : Type} (env : DbEnv T) (opt : HandlerOption) (e : JsValue) :
    ((handlerCatch env opt e).2.count .release = 1) ∧
    ((handlerCatch env opt e).2.count .refreshLastUse = 1) := by
  obtain ⟨ca, br, wr, cr, rr⟩ := env
  obtain ⟨ot, op, orb, ou⟩ := opt
  unfold handlerCatch
  cases ou <;> cases orb <;> cases op <;> cases ot <;>
    cases rr <;> by_cases hd : isDbError e <;>
      simp [hd, List.count_append, List.count_cons]

/-- C2, counterexample: when `BEGIN` fails under `useTransaction`, `handler`
releases the connection exactly once but does not refresh its last-used
timestamp — the claimed refresh-in-every-branch fails on the BEGIN-failure
branch (the `connection.release()` at `transaction.ts` line 37 runs before the
`try`/`finally` that performs the refresh). -/
theorem begin_failure_releases_without_refresh :
    ((handler (T := Unit) ⟨true, .error (.str "begin failed"), .ok (), .ok (), .ok ()⟩
        defaultHandlerOption).2.count .release = 1) ∧
    ((handler (T := Unit) ⟨true, .error (.str "begin failed"), .ok (), .ok (), .ok ()⟩
        defaultHandlerOption).2.count .refreshLastUse = 0) := by
  decide

/-- C2, amended: for every execution of `handler` in which a connection was
acquired, the connection is released back to the pool exactly once in every
branch; the last-used timestamp is refreshed in every branch except the
BEGIN-failure branch, which releases the connection without refreshing. -/
theorem handler_cleanup_amended {T : Type} (env : DbEnv T) (opt : HandlerOption)
    (h : env.connAvailable = true) :
    ((handler env opt).2.count .release = 1) ∧
    ((handler env opt).2.count .refreshLastUse =
      if opt.useTransaction && beginFails env then 0 else 1) := by
  obtain ⟨ca, br, wr, cr, rr⟩ := env
  simp only at h
  subst h
  have hcatch := fun e => handlerCatch_counts ⟨true, br, wr, cr, rr⟩ opt e
  rcases hu : opt.useTransaction with _ | _ <;>
    rcases br with be | bu <;>
      rcases wr with we | wv <;>
        rcases cr with ce | cu <;>
          simp [handler, hu, beginFails, List.count_cons, (hcatch _).1, (hcatch _).2]

/-- C2, witness for the amended theorem. -/
theorem handler_cleanup_amended_witness :
    ((handler (T := Unit) ⟨true, .ok (), .error (.obj [("code", .str "23505")]), .ok (), .ok ()⟩
        defaultHandlerOption).2.count .release = 1) ∧
    ((handler (T := Unit) ⟨true, .ok (), .error (.obj [("code", .str "23505")]), .ok (), .ok ()⟩
        defaultHandlerOption).2.count .refreshLastUse = 1) := by
  have h := handler_cleanup_amended (T := Unit)
    ⟨true, .ok (), .error (.obj [("code", .str "23505")]), .ok (), .ok ()⟩
    defaultHandlerOption rfl
  simpa [beginFails, defaultHandlerOption] using h

/-- C3: when the unit of work throws a database-classified error under
`useTransaction` with the non-throwing policy, `handler` resolves with `null`
(no exception escapes, also when `ROLLBACK` itself fails), and when
`rollbackIfError` holds a `ROLLBACK` is issued before resolving. -/
theorem db_error_nonthrowing_returns_null {T : Type} (env : DbEnv T) (opt : HandlerOption)
    (e : JsValue)
    (hconn : env.connAvailable = true) (htx : opt.useTransaction = true)
    (hthrow : opt.throwOnError = false) (hbegin : env.beginResult = Except.ok ())
    (hwork : env.workResult = Except.error e) (hdb : isDbError e = true) :
    (handler env opt).1 = HResult.nullResult ∧
    (opt.rollbackIfError = true → HEvent.qRollback ∈ (handler env opt).2) := by
  obtain ⟨ca, br, wr, cr, rr⟩ := env
  simp only at hconn hbegin hwork
  subst hconn hbegin hwork
  constructor
  · simp [handler, htx, handlerCatch, hdb, hthrow]
  · intro hrb
    rcases rr with re | ru <;>
      simp [handler, htx, handlerCatch, hdb, hthrow, hrb, List.mem_append]

/-- C3, witness: a unit of work throwing the unique-violation error
`{code: "23505"}` under `useTransaction` and the non-throwing policy. -/
theorem db_error_nonthrowing_returns_null_witness :
    (handler (T := Unit) ⟨true, .ok (), .error (.obj [("code", .str "23505")]), .ok (), .ok ()⟩
        ⟨false, true, true, true⟩).1 = HResult.nullResult ∧
    HEvent.qRollback ∈ (handler (T := Unit)
        ⟨true, .ok (), .error (.obj [("code", .str "23505")]), .ok (), .ok ()⟩
        ⟨false, true, true, true⟩).2 := by
  have h := db_error_nonthrowing_returns_null (T := Unit)
    ⟨true, .ok (), .error (.obj [("code", .str "23505")]), .ok (), .ok ()⟩
    ⟨false, true, true, true⟩ (.obj [("code", .str "23505")])
    rfl rfl rfl rfl rfl (by decide)
  exact ⟨h.1, h.2 rfl⟩

/-- C10: every error value that is an object carrying a `code` or `sqlState`
property — including non-database errors such as Node system errors with a
`code` field — is classified by `handler` as a database error: the structured
SQL diagnostic is emitted when `printSqlError` holds, and under the throwing
policy `handler` rethrows a wrapped `DatabaseError` (whose `sqlState` is
copied from the original error's `code`) rather than the original error
object. -/
theorem code_bearing_error_classified_as_db {T : Type} (env : DbEnv T) (opt : HandlerOption)
    (fields : List (String × JsValue))
    (hconn : env.connAvailable = true)
    (hbegin : opt.useTransaction = true → env.beginResult = Except.ok ())
    (hwork : env.workResult = Except.error (.obj fields))
    (hcode : fields.any (fun p => p.1 == "code" || p.1 == "sqlState") = true) :
    isDbError (.obj fields) = true ∧
    (opt.printSqlError = true → HEvent.logSqlDiagnostic ∈ (handler env opt).2) ∧
    (opt.throwOnError = true → (handler env opt).1 = .thrown (wrapDbError (.obj fields))) ∧
    getProp (wrapDbError (.obj fields)) "sqlState" = getProp (.obj fields) "code" := by
  have hdb : isDbError (.obj fields) = true := hcode
  obtain ⟨ca, br, wr, cr, rr⟩ := env
  simp only at hconn hwork
  subst hconn hwork
  refine ⟨hdb, ?_, ?_, ?_⟩
  · intro hp
    rcases hu : opt.useTransaction with _ | _
    · simp [handler, hu, handlerCatch, hdb, hp, List.mem_append]
    · have hb := hbegin hu
      simp only at hb
      rw [hb] at *
      simp [handler, hu, handlerCatch, hdb, hp, List.mem_append]
  · intro ht
    rcases hu : opt.useTransaction with _ | _
    · simp [handler, hu, handlerCatch, hdb, ht]
    · have hb := hbegin hu
      simp only at hb
      rw [hb] at *
      simp [handler, hu, handlerCatch, hdb, ht]
  · simp [wrapDbError, getProp, lookupField]

/-- C10, witness: a Node-style system error `{code: "ENOENT", message: ...}`
thrown by the work is treated as a database error and rethrown wrapped. -/
theorem code_bearing_error_classified_as_db_witness :
    isDbError (.obj [("code", .str "ENOENT"), ("message", .str "no such file or directory")]) =
      true ∧
    HEvent.logSqlDiagnostic ∈ (handler (T := Unit)
        ⟨true, .ok (), .error (.obj [("code", .str "ENOENT"),
          ("message", .str "no such file or directory")]), .ok (), .ok ()⟩
        defaultHandlerOption).2 ∧
    (handler (T := Unit)
        ⟨true, .ok (), .error (.obj [("code", .str "ENOENT"),
          ("message", .str "no such file or directory")]), .ok (), .ok ()⟩
        defaultHandlerOption).1 =
      .thrown (wrapDbError (.obj [("code", .str "ENOENT"),
        ("message", .str "no such file or directory")])) ∧
    getProp (wrapDbError (.obj [("code", .str "ENOENT"),
        ("message", .str "no such file or directory")])) "sqlState" = .str "ENOENT" := by
  have h := code_bearing_error_classified_as_db (T := Unit)
    ⟨true, .ok (), .error (.obj [("code", .str "ENOENT"),
      ("message", .str "no such file or directory")]), .ok (), .ok ()⟩
    defaultHandlerOption
    [("code", .str "ENOENT"), ("message", .str "no such file or directory")]
    rfl (fun _ => rfl) rfl (by decide)
  refine ⟨h.1, h.2.1 rfl, h.2.2.1 rfl, ?_⟩
  rw [h.2.2.2]
  simp [getProp, lookupField]

/-! ## C4: connection acquisition retry policy -/

theorem gcf_exhaust_aux (o : Nat → AttemptOutcome) (m b : Nat) :
    ∀ (k a : Nat), a + k = m →
    (∀ j, a ≤ j → j ≤ m → ∃ e, thrownOf (o j) = some e ∧
      (isTooManyConnections e || isConnectionLost e) = true) →
    getConnectionFrom o m b a = (false, (List.range' a k).map (fun j => b * 2 ^ j)) := by
  intro k
  induction k with
  | zero =>
    intro a ha hall
    obtain ⟨e, he, _⟩ := hall a (le_refl a) (by omega)
    have ham : a = m := by omega
    subst ham
    rw [getConnectionFrom, dif_pos (le_refl a)]
    simp only [he]
    simp
  | succ k ih =>
    intro a ha hall
    obtain ⟨e, he, htr⟩ := hall a (le_refl a) (by omega)
    rw [getConnectionFrom, dif_pos (by omega : a ≤ m)]
    simp only [he]
    have hcond : (a == m || (!isTooManyConnections e && !isConnectionLost e)) = false := by
      rcases Bool.or_eq_true_iff.mp htr with h1 | h1 <;>
        simp [h1, Nat.ne_of_lt (show a < m by omega)]
    rw [dif_neg (by simp [hcond])]
    have hr := ih (a + 1) (by omega) (fun j hj1 hj2 => hall j (by omega) hj2)
    simp only [hr, List.range'_succ, List.map_cons]

/-- C4: acquisition failures whose signatures match the transient classes
(too-many-connections or connection-lost) are retried with exponential
backoff `baseDelay * 2 ^ attempt` while retries remain; any other failure
returns failure immediately with no further attempt and no sleep; a failure
on the final attempt returns failure without an extra backoff sleep; when
every attempt fails transiently the loop exhausts its `maxRetries + 1`
attempts sleeping exactly `baseDelay * 2 ^ a` after each non-final attempt
`a`; and the maximum retry count defaults to 3 when unconfigured. -/
theorem connection_retry_policy :
    (∀ (o : Nat → AttemptOutcome) (m b a : Nat) (e : ThrownErr), a ≤ m →
      thrownOf (o a) = some e →
      (isTooManyConnections e || isConnectionLost e) = false →
      getConnectionFrom o m b a = (false, [])) ∧
    (∀ (o : Nat → AttemptOutcome) (m b a : Nat) (e : ThrownErr), a < m →
      thrownOf (o a) = some e →
      (isTooManyConnections e || isConnectionLost e) = true →
      getConnectionFrom o m b a =
        ((getConnectionFrom o m b (a + 1)).1,
          b * 2 ^ a :: (getConnectionFrom o m b (a + 1)).2)) ∧
    (∀ (o : Nat → AttemptOutcome) (m b : Nat) (e : ThrownErr),
      thrownOf (o m) = some e →
      getConnectionFrom o m b m = (false, [])) ∧
    (∀ (o : Nat → AttemptOutcome) (m b : Nat),
      (∀ j, j ≤ m → ∃ e, thrownOf (o j) = some e ∧
        (isTooManyConnections e || isConnectionLost e) = true) →
      getConnectionFrom o m b 0 = (false, (List.range m).map (fun a => b * 2 ^ a))) ∧
    resolveRetryCount none = 3 := by
  refine ⟨?_, ?_, ?_, ?_, rfl⟩
  · intro o m b a e ha he hcls
    rw [getConnectionFrom, dif_pos ha]
    simp only [he]
    have h1 : isTooManyConnections e = false := by
      rcases Bool.or_eq_false_iff.mp hcls with ⟨h1, _⟩
      exact h1
    have h2 : isConnectionLost e = false := by
      rcases Bool.or_eq_false_iff.mp hcls with ⟨_, h2⟩
      exact h2
    rw [dif_pos (by simp [h1, h2])]
  · intro o m b a e ha he htr
    rw [getConnectionFrom, dif_pos (by omega : a ≤ m)]
    simp only [he]
    have hcond : (a == m || (!isTooManyConnections e && !isConnectionLost e)) = false := by
      rcases Bool.or_eq_true_iff.mp htr with h1 | h1 <;>
        simp [h1, Nat.ne_of_lt ha]
    rw [dif_neg (by simp [hcond])]
  · intro o m b e he
    rw [getConnectionFrom, dif_pos (le_refl m)]
    simp only [he]
    rw [dif_pos (by simp)]
  · intro o m b hall
    have h := gcf_exhaust_aux o m b m 0 (by omega)
      (fun j _ hj2 => hall j hj2)
    rw [h]
    simp [List.range_eq_range']

/-- C4, witness: a non-retryable failure fails immediately; a transient
failure below the bound retries after sleeping `baseDelay * 2 ^ attempt`; a
failure on the final attempt fails with no extra sleep; uniformly transient
failures exhaust the single retry of `maxRetries = 1` sleeping once; and the
default retry count is 3. -/
theorem connection_retry_policy_witness :
    getConnectionFrom (fun _ => .connectError ⟨true, "auth failed", none⟩) 3 100 0 =
      (false, []) ∧
    getConnectionFrom (fun _ => .connectError ⟨true, "too many clients already", none⟩) 3 100 0 =
      ((getConnectionFrom (fun _ => .connectError ⟨true, "too many clients already", none⟩)
          3 100 1).1,
        100 * 2 ^ 0 :: (getConnectionFrom
          (fun _ => .connectError ⟨true, "too many clients already", none⟩) 3 100 1).2) ∧
    getConnectionFrom (fun _ => .connectError ⟨true, "too many clients already", none⟩) 3 100 3 =
      (false, []) ∧
    getConnectionFrom (fun _ => .connectError ⟨true, "too many clients already", none⟩) 1 100 0 =
      (false, [100]) ∧
    resolveRetryCount none = 3 := by
  refine ⟨?_, ?_, ?_, ?_, connection_retry_policy.2.2.2.2⟩
  · exact connection_retry_policy.1 (fun _ => .connectError ⟨true, "auth failed", none⟩)
      3 100 0 ⟨true, "auth failed", none⟩ (by omega) rfl (by decide)
  · exact connection_retry_policy.2.1
      (fun _ => .connectError ⟨true, "too many clients already", none⟩)
      3 100 0 ⟨true, "too many clients already", none⟩ (by omega) rfl (by decide)
  · exact connection_retry_policy.2.2.1
      (fun _ => .connectError ⟨true, "too many clients already", none⟩)
      3 100 ⟨true, "too many clients already", none⟩ rfl
  · have h := connection_retry_policy.2.2.2.1
      (fun _ => .connectError ⟨true, "too many clients already", none⟩) 1 100
      (fun j _ => ⟨⟨true, "too many clients already", none⟩, rfl, by decide⟩)
    rw [h]
    rfl

/-! ## C1: placeholder numbering of compiled clauses

The development: (a) algebra of the token lists; (b) the rendered token
mirror coincides with the string-building source embedding; (c) the
placeholders emitted by any compilation are exactly the consecutive run
starting at `startIndex`; (d) with dollar-free identifiers, counting `$`
characters in the SQL string counts exactly the placeholders. -/

theorem renderToks_append (a b : List Tok) :
    renderToks (a ++ b) = renderToks a ++ renderToks b := by
  induction a with
  | nil => simp [renderToks]
  | cons t ts ih => simp [renderToks, ih, String.append_assoc]

theorem phNums_append (a b : List Tok) : phNums (a ++ b) = phNums a ++ phNums b := by
  induction a with
  | nil => simp [phNums]
  | cons t ts ih => cases t <;> simp [phNums, ih]

theorem renderToks_joinToks (j : String) (ps : List (List Tok)) :
    renderToks (joinToks j ps) = joinSep j (ps.map renderToks) := by
  induction ps with
  | nil => simp [joinToks, joinSep, renderToks]
  | cons p rest ih =>
    cases rest with
    | nil => simp [joinToks, joinSep]
    | cons q t =>
      simp only [joinToks]
      rw [renderToks_append]
      rw [show renderToks (Tok.txt j :: joinToks j (q :: t)) =
        j ++ renderToks (joinToks j (q :: t)) from rfl]
      rw [ih]
      rw [show List.map renderToks (p :: q :: t) =
        renderToks p :: renderToks q :: List.map renderToks t from rfl]
      rw [show joinSep j (renderToks p :: renderToks q :: List.map renderToks t) =
        renderToks p ++ j ++ joinSep j (renderToks q :: List.map renderToks t) from rfl]
      rw [show (renderToks q :: List.map renderToks t) =
        List.map renderToks (q :: t) from rfl]
      simp [String.append_assoc]

theorem phNums_joinToks (j : String) (ps : List (List Tok)) :
    phNums (joinToks j ps) = (ps.map phNums).flatten := by
  induction ps with
  | nil => simp [joinToks, phNums]
  | cons p rest ih =>
    cases rest with
    | nil => simp [joinToks, phNums]
    | cons q t =>
      simp only [joinToks]
      rw [phNums_append]
      rw [show phNums (Tok.txt j :: joinToks j (q :: t)) =
        phNums (joinToks j (q :: t)) from rfl]
      rw [ih]
      simp

theorem renderToks_phSeq (s n : Nat) :
    renderToks (phSeq s n) =
      joinSep ", " ((List.range' s n).map (fun k => "$" ++ toString k)) := by
  induction n generalizing s with
  | zero => simp [phSeq, joinSep, renderToks]
  | succ n ih =>
    cases n with
    | zero => simp [phSeq, renderToks, renderTok, joinSep, List.range']
    | succ m =>
      rw [show phSeq s (m + 1 + 1) = .ph s :: .txt ", " :: phSeq (s + 1) (m + 1) from rfl]
      rw [show renderToks (Tok.ph s :: Tok.txt ", " :: phSeq (s + 1) (m + 1)) =
        ("$" ++ toString s) ++ (", " ++ renderToks (phSeq (s + 1) (m + 1))) from rfl]
      rw [ih (s + 1)]
      conv_rhs => rw [List.range'_succ, List.map_cons, List.range'_succ, List.map_cons]
      rw [show joinSep ", " (("$" ++ toString s) :: ("$" ++ toString (s + 1)) ::
          List.map (fun k => "$" ++ toString k) (List.range' (s + 1 + 1) m)) =
        ("$" ++ toString s) ++ ", " ++ joinSep ", " (("$" ++ toString (s + 1)) ::
          List.map (fun k => "$" ++ toString k) (List.range' (s + 1 + 1) m)) from rfl]
      rw [show ("$" ++ toString (s + 1)) ::
          List.map (fun k => "$" ++ toString k) (List.range' (s + 1 + 1) m) =
        List.map (fun k => "$" ++ toString k) (List.range' (s + 1) (m + 1)) from by
          rw [List.range'_succ, List.map_cons]]
      simp [String.append_assoc]

theorem phNums_phSeq (s n : Nat) : phNums (phSeq s n) = List.range' s n := by
  induction n generalizing s with
  | zero => simp [phSeq, phNums]
  | succ n ih =>
    cases n with
    | zero => simp [phSeq, phNums, List.range']
    | succ m =>
      rw [show phSeq s (m + 1 + 1) = .ph s :: .txt ", " :: phSeq (s + 1) (m + 1) from rfl]
      rw [show phNums (Tok.ph s :: Tok.txt ", " :: phSeq (s + 1) (m + 1)) =
        s :: phNums (phSeq (s + 1) (m + 1)) from rfl]
      rw [ih (s + 1)]
      rw [show List.range' s (m + 1 + 1) = s :: List.range' (s + 1) (m + 1) from
        List.range'_succ s (m + 1) 1]

theorem append_ne_empty_left {a : String} (b : String) (h : ¬ a = "") :
    ¬ (a ++ b) = "" := by
  intro he
  apply h
  have h2 := congrArg String.length he
  rw [String.length_append] at h2
  have ha : a.length = 0 := by
    have : ("" : String).length = 0 := rfl
    omega
  cases a with
  | mk data =>
    cases data with
    | nil => rfl
    | cons c cs => simp [String.length, List.length] at ha

theorem digitChar_ne_dollar (n : Nat) : Nat.digitChar n ≠ '$' := by
  have h : n = 0 ∨ n = 1 ∨ n = 2 ∨ n = 3 ∨ n = 4 ∨ n = 5 ∨ n = 6 ∨ n = 7 ∨ n = 8 ∨
      n = 9 ∨ n = 10 ∨ n = 11 ∨ n = 12 ∨ n = 13 ∨ n = 14 ∨ n = 15 ∨ 16 ≤ n := by omega
  rcases h with rfl|rfl|rfl|rfl|rfl|rfl|rfl|rfl|rfl|rfl|rfl|rfl|rfl|rfl|rfl|rfl|h16
  all_goals try decide
  show Nat.digitChar n ≠ '$'
  unfold Nat.digitChar
  rw [if_neg (show ¬ n = 0 by omega), if_neg (show ¬ n = 1 by omega),
    if_neg (show ¬ n = 2 by omega), if_neg (show ¬ n = 3 by omega),
    if_neg (show ¬ n = 4 by omega), if_neg (show ¬ n = 5 by omega),
    if_neg (show ¬ n = 6 by omega), if_neg (show ¬ n = 7 by omega),
    if_neg (show ¬ n = 8 by omega), if_neg (show ¬ n = 9 by omega),
    if_neg (show ¬ n = 10 by omega), if_neg (show ¬ n = 11 by omega),
    if_neg (show ¬ n = 12 by omega), if_neg (show ¬ n = 13 by omega),
    if_neg (show ¬ n = 14 by omega), if_neg (show ¬ n = 15 by omega)]
  decide

theorem toDigitsCore_ne_dollar (b : Nat) :
    ∀ (fuel n : Nat) (ds : List Char), (∀ c ∈ ds, c ≠ '$') →
      ∀ c ∈ Nat.toDigitsCore b fuel n ds, c ≠ '$' := by
  intro fuel
  induction fuel with
  | zero =>
    intro n ds h c hc
    rw [Nat.toDigitsCore] at hc
    exact h c hc
  | succ fuel ih =>
    intro n ds h c hc
    rw [Nat.toDigitsCore] at hc
    by_cases hz : n / b = 0
    · simp only [hz, if_true, reduceIte] at hc
      rcases List.mem_cons.mp hc with rfl | hm
      · exact digitChar_ne_dollar _
      · exact h c hm
    · simp only [hz, if_false, reduceIte] at hc
      refine ih (n / b) (Nat.digitChar (n % b) :: ds) ?_ c hc
      intro d hd
      rcases List.mem_cons.mp hd with rfl | hm
      · exact digitChar_ne_dollar _
      · exact h d hm

theorem countDollar_natToString (n : Nat) : countDollar (toString n) = 0 := by
  have h1 : toString n = (Nat.toDigits 10 n).asString := rfl
  rw [h1, countDollar]
  have h2 : ((Nat.toDigits 10 n).asString).toList = Nat.toDigits 10 n := rfl
  rw [h2]
  rw [List.count_eq_zero]
  intro hm
  exact toDigitsCore_ne_dollar 10 (n + 1) n [] (by intro c hc; simp at hc) '$' hm rfl

theorem countDollar_append (a b : String) :
    countDollar (a ++ b) = countDollar a + countDollar b := by
  simp [countDollar, List.count_append]

theorem countDollar_intToString (n : Int) : countDollar (toString n) = 0 := by
  have h1 : toString n = Int.repr n := rfl
  rw [h1]
  cases n with
  | ofNat m => exact countDollar_natToString m
  | negSucc m =>
    have h2 : Int.repr (Int.negSucc m) = "-" ++ Nat.repr (m + 1) := rfl
    rw [h2, countDollar_append]
    have h3 : countDollar "-" = 0 := by decide
    have h4 := countDollar_natToString (m + 1)
    rw [show toString (m + 1) = Nat.repr (m + 1) from rfl] at h4
    omega

/- Conditional unfolding equations for arbitrary nodes, phrased by the same
dynamic tests the source performs. -/

theorem bcn_not_nil_general (node : JsValue) (i : Nat) (h : hasProp node "type" = true)
    (hnot : isStr (getProp node "type") "NOT" = true)
    (hc : toArr (getProp node "conditions") = []) :
    buildConditionNode node i = ⟨"", [], i⟩ := by
  rw [buildConditionNode, dif_pos h]
  simp only [hnot, if_true]
  split
  · rfl
  · rename_i child rest hc2
    rw [hc] at hc2
    exact absurd hc2 (by simp)

theorem bcn_not_cons_general (node c : JsValue) (cs : List JsValue) (i : Nat)
    (h : hasProp node "type" = true)
    (hnot : isStr (getProp node "type") "NOT" = true)
    (hc : toArr (getProp node "conditions") = c :: cs) :
    buildConditionNode node i =
      (let built := buildConditionNode c i
       if built.sql == "" then ⟨"", [], built.nextIndex⟩
       else ⟨"NOT (" ++ built.sql ++ ")", built.params, built.nextIndex⟩) := by
  rw [buildConditionNode, dif_pos h]
  simp only [hnot, if_true]
  split
  · rename_i hc2
    rw [hc] at hc2
    exact absurd hc2 (by simp)
  · rename_i child rest hc2
    rw [hc] at hc2
    obtain ⟨rfl, rfl⟩ := List.cons.injEq _ _ _ _ ▸ hc2
    rfl

theorem bcn_andor_general (node : JsValue) (i : Nat) (h : hasProp node "type" = true)
    (hnot : isStr (getProp node "type") "NOT" = false) :
    buildConditionNode node i =
      (let joiner := if isStr (getProp node "type") "AND" then " AND " else " OR "
       let r := buildChildren (toArr (getProp node "conditions")) i
       ⟨joinSep joiner r.parts, r.params, r.nextIndex⟩) := by
  rw [buildConditionNode, dif_pos h]
  simp only [hnot, Bool.false_eq_true, if_false]

theorem bcn_leaf_general (node : JsValue) (i : Nat) (h : hasProp node "type" = false) :
    buildConditionNode node i = buildFieldCondition node i := by
  rw [buildConditionNode]
  simp [h]

theorem bct_not_nil_general (node : JsValue) (i : Nat) (h : hasProp node "type" = true)
    (hnot : isStr (getProp node "type") "NOT" = true)
    (hc : toArr (getProp node "conditions") = []) :
    buildConditionTokens node i = ⟨[], [], i⟩ := by
  rw [buildConditionTokens, dif_pos h]
  simp only [hnot, if_true]
  split
  · rfl
  · rename_i child rest hc2
    rw [hc] at hc2
    exact absurd hc2 (by simp)

theorem bct_not_cons_general (node c : JsValue) (cs : List JsValue) (i : Nat)
    (h : hasProp node "type" = true)
    (hnot : isStr (getProp node "type") "NOT" = true)
    (hc : toArr (getProp node "conditions") = c :: cs) :
    buildConditionTokens node i =
      (let built := buildConditionTokens c i
       if renderToks built.toks == "" then ⟨[], [], built.nextIndex⟩
       else ⟨.txt "NOT (" :: built.toks ++ [.txt ")"], built.params, built.nextIndex⟩) := by
  rw [buildConditionTokens, dif_pos h]
  simp only [hnot, if_true]
  split
  · rename_i hc2
    rw [hc] at hc2
    exact absurd hc2 (by simp)
  · rename_i child rest hc2
    rw [hc] at hc2
    obtain ⟨rfl, rfl⟩ := List.cons.injEq _ _ _ _ ▸ hc2
    rfl

theorem bct_andor_general (node : JsValue) (i : Nat) (h : hasProp node "type" = true)
    (hnot : isStr (getProp node "type") "NOT" = false) :
    buildConditionTokens node i =
      (let joiner := if isStr (getProp node "type") "AND" then " AND " else " OR "
       let r := buildChildrenTokens (toArr (getProp node "conditions")) i
       ⟨joinToks joiner r.parts, r.params, r.nextIndex⟩) := by
  rw [buildConditionTokens, dif_pos h]
  simp only [hnot, Bool.false_eq_true, if_false]

theorem bct_leaf_general (node : JsValue) (i : Nat) (h : hasProp node "type" = false) :
    buildConditionTokens node i = buildFieldTokens node i := by
  rw [buildConditionTokens]
  simp [h]

theorem phNums_cons_txt (s : String) (ts : List Tok) : phNums (.txt s :: ts) = phNums ts := rfl

theorem phNums_cons_ph (n : Nat) (ts : List Tok) : phNums (.ph n :: ts) = n :: phNums ts := rfl

/-- The token mirror of the field-condition branch renders to exactly the SQL
string of the source embedding, with the same parameters and next index. -/
theorem renderToks_cons (t : Tok) (ts : List Tok) :
    renderToks (t :: ts) = renderTok t ++ renderToks ts := rfl

theorem field_corr (node : JsValue) (i : Nat) :
    renderToks (buildFieldTokens node i).toks = (buildFieldCondition node i).sql ∧
    (buildFieldTokens node i).params = (buildFieldCondition node i).params ∧
    (buildFieldTokens node i).nextIndex = (buildFieldCondition node i).nextIndex := by
  unfold buildFieldCondition buildFieldTokens
  cases h1 : (isStr (getProp node "operator") "IN" || isStr (getProp node "operator") "NOT IN") with
  | true =>
    simp only [h1, if_true]
    cases hv : (if truthy (getProp node "value") then getProp node "value" else JsValue.arr []) with
    | arr vs =>
      cases vs with
      | nil => simp [renderToks, renderTok, String.append_empty]
      | cons v vt =>
        dsimp only
        refine ⟨?_, by trivial, by trivial⟩
        rw [renderToks_append, renderToks_cons, renderToks_phSeq]
        simp [renderToks, renderTok, String.append_assoc, String.append_empty]
    | null => simp [renderToks, renderTok, String.append_empty]
    | undef => simp [renderToks, renderTok, String.append_empty]
    | bool b => simp [renderToks, renderTok, String.append_empty]
    | num n => simp [renderToks, renderTok, String.append_empty]
    | str s => simp [renderToks, renderTok, String.append_empty]
    | obj fs => simp [renderToks, renderTok, String.append_empty]
  | false =>
    simp only [h1, Bool.false_eq_true, if_false]
    cases h2 : isStr (getProp node "operator") "BETWEEN" with
    | true =>
      simp only [h2, if_true]
      refine ⟨?_, by trivial, by trivial⟩
      simp only [renderToks, renderTok, String.append_assoc, String.append_empty]
      rw [show (" AND " : String) ++ ("$" ++ toString (i + 1)) =
        " AND $" ++ toString (i + 1) from by rw [← String.append_assoc]; try rfl]
      try rw [show (" BETWEEN " : String) ++ ("$" ++ (toString i ++ (" AND $" ++ toString (i + 1)))) =
        " BETWEEN $" ++ (toString i ++ (" AND $" ++ toString (i + 1))) from by
          rw [← String.append_assoc]; try rfl]
      try simp [String.append_assoc]
    | false =>
      simp only [h2, Bool.false_eq_true, if_false]
      cases h3 : isNullV (getProp node "value") with
      | true => simp [h3, renderToks, renderTok, String.append_empty]
      | false =>
        simp only [h3, Bool.false_eq_true, if_false]
        refine ⟨?_, by trivial, by trivial⟩
        simp only [renderToks, renderTok, String.append_assoc, String.append_empty]
        rw [show (" " : String) ++ ("$" ++ toString i) = " $" ++ toString i from by
          rw [← String.append_assoc]; try rfl]
        try simp [String.append_assoc]


/-- The token mirror of the compiler renders to exactly the SQL string of the
source embedding, with the same parameters and the same next index. -/
theorem tok_corr (node : JsValue) (i : Nat) :
    renderToks (buildConditionTokens node i).toks = (buildConditionNode node i).sql ∧
    (buildConditionTokens node i).params = (buildConditionNode node i).params ∧
    (buildConditionTokens node i).nextIndex = (buildConditionNode node i).nextIndex := by
  refine buildConditionTokens.induct
    (fun node i =>
      renderToks (buildConditionTokens node i).toks = (buildConditionNode node i).sql ∧
      (buildConditionTokens node i).params = (buildConditionNode node i).params ∧
      (buildConditionTokens node i).nextIndex = (buildConditionNode node i).nextIndex)
    (fun l i =>
      List.map renderToks (buildChildrenTokens l i).parts = (buildChildren l i).parts ∧
      (buildChildrenTokens l i).params = (buildChildren l i).params ∧
      (buildChildrenTokens l i).nextIndex = (buildChildren l i).nextIndex)
    ?_ ?_ ?_ ?_ ?_ ?_ ?_ ?_ node i
  · intro node i h t hnot hc
    rw [bct_not_nil_general node i h hnot hc, bcn_not_nil_general node i h hnot hc]
    exact ⟨by trivial, by trivial, by trivial⟩
  · intro node i h t hnot child _rest hc built hempty ih
    obtain ⟨ih1, ih2, ih3⟩ := ih
    rw [bct_not_cons_general node child _rest i h hnot hc,
      bcn_not_cons_general node child _rest i h hnot hc]
    have hsql : ((buildConditionNode child i).sql == "") = true := by
      rw [← ih1]; exact hempty
    simp only [hempty, hsql, if_true]
    exact ⟨by trivial, by trivial, ih3⟩
  · intro node i h t hnot child _rest hc built hne ih
    obtain ⟨ih1, ih2, ih3⟩ := ih
    rw [bct_not_cons_general node child _rest i h hnot hc,
      bcn_not_cons_general node child _rest i h hnot hc]
    have hbf : (renderToks (buildConditionTokens child i).toks == "") = false := by
      simpa using hne
    have hsql : ((buildConditionNode child i).sql == "") = false := by
      rw [← ih1]; exact hbf
    simp only [hbf, hsql, Bool.false_eq_true, if_false]
    refine ⟨?_, ih2, ih3⟩
    rw [renderToks_append, renderToks_cons, ih1]
    simp [renderToks, renderTok, String.append_assoc, String.append_empty]
  · intro node i h t hnot ih
    obtain ⟨ihp, ihparams, ihnext⟩ := ih
    rw [bct_andor_general node i h (Bool.eq_false_iff.mpr hnot),
      bcn_andor_general node i h (Bool.eq_false_iff.mpr hnot)]
    refine ⟨?_, ihparams, ihnext⟩
    rw [renderToks_joinToks, ihp]
  · intro node i h
    have hb : hasProp node "type" = false := Bool.eq_false_iff.mpr h
    rw [bct_leaf_general node i hb, bcn_leaf_general node i hb]
    exact field_corr node i
  · intro i
    rw [buildChildrenTokens_nil, buildChildren_nil]
    exact ⟨by trivial, by trivial, by trivial⟩
  · intro i c rest b hempty ihc ihrest
    obtain ⟨ic1, ic2, ic3⟩ := ihc
    rw [buildChildrenTokens_cons, buildChildren_cons]
    have hsql : ((buildConditionNode c i).sql == "") = true := by
      rw [← ic1]; exact hempty
    simp only [hempty, hsql, if_true]
    exact ihrest
  · intro i c rest b hne ihc ihrest
    obtain ⟨ic1, ic2, ic3⟩ := ihc
    rw [buildChildrenTokens_cons, buildChildren_cons]
    have hbf : (renderToks (buildConditionTokens c i).toks == "") = false := by
      simpa using hne
    have hsql : ((buildConditionNode c i).sql == "") = false := by
      rw [← ic1]; exact hbf
    simp only [hbf, hsql, Bool.false_eq_true, if_false]
    rw [← ic3]
    obtain ⟨ir1, ir2, ir3⟩ := ihrest
    refine ⟨?_, ?_, ?_⟩
    · rw [List.map_cons, ir1, renderToks_append, renderToks_cons, ic1]
      simp [renderToks, renderTok, String.append_assoc, String.append_empty]
    · rw [ic2, ir2]
    · exact ir3

theorem joinToks_ne_empty (j : String) (ps : List (List Tok))
    (h : ∀ p ∈ ps, ¬ renderToks p = "") (hne : ps ≠ []) :
    ¬ renderToks (joinToks j ps) = "" := by
  cases ps with
  | nil => exact absurd rfl hne
  | cons p rest =>
    cases rest with
    | nil =>
      rw [show joinToks j [p] = p from rfl]
      exact h p (by simp)
    | cons q t =>
      rw [show joinToks j (p :: q :: t) = p ++ Tok.txt j :: joinToks j (q :: t) from rfl]
      rw [renderToks_append]
      exact append_ne_empty_left _ (h p (by simp))

/-- Placeholder numbering of the field-condition branch: the emitted
placeholders are exactly `startIndex, startIndex+1, ...`, one per parameter,
the next index moves by the parameter count, and the fragment is never
empty. -/
theorem field_inv (node : JsValue) (i : Nat) :
    phNums (buildFieldTokens node i).toks =
      List.range' i (buildFieldTokens node i).params.length ∧
    (buildFieldTokens node i).nextIndex = i + (buildFieldTokens node i).params.length ∧
    ¬ renderToks (buildFieldTokens node i).toks = "" := by
  unfold buildFieldTokens
  cases h1 : (isStr (getProp node "operator") "IN" || isStr (getProp node "operator") "NOT IN") with
  | true =>
    simp only [h1, if_true]
    cases hv : (if truthy (getProp node "value") then getProp node "value" else JsValue.arr []) with
    | arr vs =>
      cases vs with
      | nil =>
        refine ⟨by simp [phNums], by simp, ?_⟩
        rw [renderToks_cons]
        cases h : isStr (getProp node "operator") "IN" <;>
          simp [h, renderTok, renderToks, String.append_empty] <;> decide
      | cons v vt =>
        dsimp only
        refine ⟨?_, ?_, ?_⟩
        · rw [phNums_append, phNums_cons_txt, phNums_phSeq]
          simp [phNums]
        · simp
        · rw [renderToks_append, renderToks_cons]
          simp only [renderTok]
          refine append_ne_empty_left _ ?_
          refine append_ne_empty_left _ ?_
          exact append_ne_empty_right _ (by decide)
    | null =>
      refine ⟨by simp [phNums], by simp, ?_⟩
      rw [renderToks_cons]
      cases h : isStr (getProp node "operator") "IN" <;>
        simp [h, renderTok, renderToks, String.append_empty] <;> decide
    | undef =>
      refine ⟨by simp [phNums], by simp, ?_⟩
      rw [renderToks_cons]
      cases h : isStr (getProp node "operator") "IN" <;>
        simp [h, renderTok, renderToks, String.append_empty] <;> decide
    | bool b =>
      refine ⟨by simp [phNums], by simp, ?_⟩
      rw [renderToks_cons]
      cases h : isStr (getProp node "operator") "IN" <;>
        simp [h, renderTok, renderToks, String.append_empty] <;> decide
    | num n =>
      refine ⟨by simp [phNums], by simp, ?_⟩
      rw [renderToks_cons]
      cases h : isStr (getProp node "operator") "IN" <;>
        simp [h, renderTok, renderToks, String.append_empty] <;> decide
    | str s =>
      refine ⟨by simp [phNums], by simp, ?_⟩
      rw [renderToks_cons]
      cases h : isStr (getProp node "operator") "IN" <;>
        simp [h, renderTok, renderToks, String.append_empty] <;> decide
    | obj fs =>
      refine ⟨by simp [phNums], by simp, ?_⟩
      rw [renderToks_cons]
      cases h : isStr (getProp node "operator") "IN" <;>
        simp [h, renderTok, renderToks, String.append_empty] <;> decide
  | false =>
    simp only [h1, Bool.false_eq_true, if_false]
    cases h2 : isStr (getProp node "operator") "BETWEEN" with
    | true =>
      simp only [h2, if_true]
      refine ⟨?_, by simp, ?_⟩
      · simp [phNums, List.range']
      · rw [renderToks_cons]
        simp only [renderTok]
        exact append_ne_empty_left _ (append_ne_empty_right _ (by decide))
    | false =>
      simp only [h2, Bool.false_eq_true, if_false]
      cases h3 : isNullV (getProp node "value") with
      | true =>
        simp only [h3, if_true]
        refine ⟨by simp [phNums], by simp, ?_⟩
        rw [renderToks_cons]
        simp only [renderTok, renderToks, String.append_empty]
        exact append_ne_empty_right _ (by decide)
      | false =>
        simp only [h3, Bool.false_eq_true, if_false]
        refine ⟨?_, by simp, ?_⟩
        · simp [phNums, List.range']
        · rw [renderToks_cons]
          simp only [renderTok]
          exact append_ne_empty_left _ (append_ne_empty_right _ (by decide))

/-- Placeholder numbering of the token mirror: every compilation starting at
index `i` emits placeholders `i, i+1, ...` in order, exactly one per
parameter, and leaves `nextIndex = i + params.length`; an empty fragment
binds no parameters and leaves the index unchanged. -/
theorem tok_inv (node : JsValue) (i : Nat) :
    phNums (buildConditionTokens node i).toks =
      List.range' i (buildConditionTokens node i).params.length ∧
    (buildConditionTokens node i).nextIndex = i + (buildConditionTokens node i).params.length ∧
    (renderToks (buildConditionTokens node i).toks = "" →
      (buildConditionTokens node i).params = [] ∧
        (buildConditionTokens node i).nextIndex = i) := by
  refine buildConditionTokens.induct
    (fun node i =>
      phNums (buildConditionTokens node i).toks =
        List.range' i (buildConditionTokens node i).params.length ∧
      (buildConditionTokens node i).nextIndex =
        i + (buildConditionTokens node i).params.length ∧
      (renderToks (buildConditionTokens node i).toks = "" →
        (buildConditionTokens node i).params = [] ∧
          (buildConditionTokens node i).nextIndex = i))
    (fun l i =>
      ((buildChildrenTokens l i).parts.map phNums).flatten =
        List.range' i (buildChildrenTokens l i).params.length ∧
      (buildChildrenTokens l i).nextIndex = i + (buildChildrenTokens l i).params.length ∧
      (∀ p ∈ (buildChildrenTokens l i).parts, ¬ renderToks p = ""))
    ?_ ?_ ?_ ?_ ?_ ?_ ?_ ?_ node i
  · intro node i h t hnot hc
    rw [bct_not_nil_general node i h hnot hc]
    exact ⟨by simp [phNums], by simp, fun _ => ⟨rfl, rfl⟩⟩
  · intro node i h t hnot child _rest hc built hempty ih
    obtain ⟨ih1, ih2, ih3⟩ := ih
    obtain ⟨hp, hn⟩ := ih3 (beq_iff_eq.mp hempty)
    rw [bct_not_cons_general node child _rest i h hnot hc]
    simp only [hempty, if_true]
    exact ⟨by simp [phNums], by simp [hn], fun _ => ⟨by trivial, hn⟩⟩
  · intro node i h t hnot child _rest hc built hne ih
    obtain ⟨ih1, ih2, ih3⟩ := ih
    have hbf : (renderToks (buildConditionTokens child i).toks == "") = false := by
      simpa using hne
    rw [bct_not_cons_general node child _rest i h hnot hc]
    simp only [hbf, Bool.false_eq_true, if_false]
    refine ⟨?_, ?_, ?_⟩
    · dsimp only
      rw [phNums_append, phNums_cons_txt, ih1]
      simp [phNums]
    · dsimp only
      exact ih2
    · dsimp only
      intro habs
      rw [renderToks_append, renderToks_cons] at habs
      simp only [renderTok] at habs
      exact absurd habs (append_ne_empty_left _ (append_ne_empty_left _ (by decide)))
  · intro node i h t hnot ih
    obtain ⟨ih1, ih2, ih3⟩ := ih
    rw [bct_andor_general node i h (Bool.eq_false_iff.mpr hnot)]
    refine ⟨?_, ih2, ?_⟩
    · dsimp only
      rw [phNums_joinToks, ih1]
    · dsimp only
      intro habs
      cases hps : (buildChildrenTokens (toArr (getProp node "conditions")) i).parts with
      | nil =>
        rw [hps] at ih1
        simp only [List.map_nil, List.flatten_nil] at ih1
        have hlen : (buildChildrenTokens (toArr (getProp node "conditions")) i).params.length =
            0 := by
          have := List.range'_eq_nil.mp ih1.symm
          exact this
        refine ⟨List.length_eq_zero.mp hlen, by omega⟩
      | cons p rest =>
        rw [hps] at habs
        exact absurd habs (joinToks_ne_empty _ _ (by
          intro q hq
          refine ih3 q ?_
          rw [hps]
          exact hq) (by simp))
  · intro node i h
    have hb : hasProp node "type" = false := Bool.eq_false_iff.mpr h
    rw [bct_leaf_general node i hb]
    obtain ⟨f1, f2, f3⟩ := field_inv node i
    exact ⟨f1, f2, fun habs => absurd habs f3⟩
  · intro i
    rw [buildChildrenTokens_nil]
    exact ⟨by simp [phNums], by simp, by intro p hp; simp at hp⟩
  · intro i c rest b hempty ihc ihrest
    rw [buildChildrenTokens_cons]
    simp only [hempty, if_true]
    exact ihrest
  · intro i c rest b hne ihc ihrest
    obtain ⟨ic1, ic2, ic3⟩ := ihc
    have hbeq : b = buildConditionTokens c i := rfl
    rw [hbeq, ic2] at ihrest
    obtain ⟨ir1, ir2, ir3⟩ := ihrest
    have hbf : (renderToks (buildConditionTokens c i).toks == "") = false := by
      simpa using hne
    rw [buildChildrenTokens_cons]
    simp only [hbf, Bool.false_eq_true, if_false]
    refine ⟨?_, ?_, ?_⟩
    · dsimp only
      rw [ic2]
      rw [List.map_cons, List.flatten_cons]
      rw [show phNums ((Tok.txt "(" :: (buildConditionTokens c i).toks) ++ [Tok.txt ")"]) =
        phNums (buildConditionTokens c i).toks from by
          rw [phNums_append, phNums_cons_txt]; simp [phNums]]
      rw [ic1, ir1]
      have hr := List.range'_append i ((buildConditionTokens c i).params.length)
        ((buildChildrenTokens rest
          (i + (buildConditionTokens c i).params.length)).params.length) 1
      simp only [one_mul] at hr
      simp only [List.length_append]
      rw [hr]
      congr 1
      omega
    · dsimp only
      rw [ic2]
      simp only [List.length_append]
      omega
    · dsimp only
      rw [ic2]
      intro p hp
      rcases List.mem_cons.mp hp with rfl | hm
      · rw [renderToks_append, renderToks_cons]
        simp only [renderTok]
        exact append_ne_empty_left _ (append_ne_empty_left _ (by decide))
      · exact ir3 p hm

/-- The token mirror of `buildWhereClause` renders to exactly its SQL string,
with the same parameters. -/
theorem where_corr (w : JsValue) (i : Nat) :
    renderToks (buildWhereTokens w i).1 = (buildWhereClause w i).1 ∧
    (buildWhereTokens w i).2 = (buildWhereClause w i).2 := by
  unfold buildWhereTokens buildWhereClause
  cases htr : truthy w with
  | false => simp [htr, renderToks]
  | true =>
    simp only [htr, Bool.true_eq_false, if_false, reduceIte]
    cases hcn : (if truthy (getProp w "type") || truthy (getProp w "field") then some w
        else recordToConditionNode (entriesOf w)) with
    | none => constructor <;> trivial
    | some node =>
      obtain ⟨c1, c2, c3⟩ := tok_corr node i
      cases hsql : ((buildConditionNode node i).sql == "") with
      | true =>
        have htok : (renderToks (buildConditionTokens node i).toks == "") = true := by
          rw [c1]; exact hsql
        simp only [hsql, htok, if_true]
        constructor <;> trivial
      | false =>
        have htok : (renderToks (buildConditionTokens node i).toks == "") = false := by
          rw [c1]; exact hsql
        simp only [hsql, htok, Bool.false_eq_true, if_false]
        refine ⟨?_, c2⟩
        rw [renderToks_cons, c1]
        rfl

/-- The placeholders of a compiled WHERE clause, at token level, are exactly
`startIndex, startIndex + 1, ...`, one per parameter. -/
theorem where_inv (w : JsValue) (i : Nat) :
    phNums (buildWhereTokens w i).1 = List.range' i ((buildWhereTokens w i).2.length) := by
  unfold buildWhereTokens
  cases htr : truthy w with
  | false => simp [htr, phNums]
  | true =>
    simp only [htr, Bool.true_eq_false, if_false, reduceIte]
    cases hcn : (if truthy (getProp w "type") || truthy (getProp w "field") then some w
        else recordToConditionNode (entriesOf w)) with
    | none => simp [phNums]
    | some node =>
      obtain ⟨i1, i2, i3⟩ := tok_inv node i
      cases htok : (renderToks (buildConditionTokens node i).toks == "") with
      | true => simp [htok, phNums]
      | false =>
        simp only [htok, Bool.false_eq_true, if_false]
        rw [phNums_cons_txt, i1]

theorem countDollar_renderToks (toks : List Tok)
    (h : ∀ s, Tok.txt s ∈ toks → countDollar s = 0) :
    countDollar (renderToks toks) = (phNums toks).length := by
  induction toks with
  | nil => decide
  | cons t ts ih =>
    have ihs := ih (fun s hs => h s (List.mem_cons_of_mem t hs))
    cases t with
    | txt s =>
      rw [renderToks_cons, phNums_cons_txt]
      rw [show renderTok (Tok.txt s) = s from rfl]
      rw [countDollar_append, h s (List.mem_cons_self _ _), ihs]
      omega
    | ph n =>
      rw [renderToks_cons, phNums_cons_ph]
      rw [show renderTok (Tok.ph n) = "$" ++ toString n from rfl]
      rw [countDollar_append, countDollar_append, countDollar_natToString, ihs]
      rw [show countDollar "$" = 1 from by decide]
      simp only [List.length_cons]
      omega

theorem dollarFreeList_mem {l : List JsValue} (h : dollarFreeList l = true) :
    ∀ c ∈ l, dollarFree c = true := by
  induction l with
  | nil => intro c hc; simp at hc
  | cons v vs ih =>
    rw [dollarFreeList] at h
    intro c hc
    rcases List.mem_cons.mp hc with rfl | hm
    · exact (Bool.and_eq_true_iff.mp h).1
    · exact ih (Bool.and_eq_true_iff.mp h).2 c hm

theorem dollarFree_lookupField {fields : List (String × JsValue)}
    (h : dollarFreeFields fields = true) (k : String) :
    dollarFree (lookupField fields k) = true := by
  induction fields with
  | nil => rw [lookupField]; rfl
  | cons p rest ih =>
    obtain ⟨a, b⟩ := p
    rw [dollarFreeFields] at h
    have h1 := Bool.and_eq_true_iff.mp h
    have h2 := Bool.and_eq_true_iff.mp h1.1
    rw [lookupField]
    by_cases hk : a == k
    · simp only [hk, if_true]
      exact h2.2
    · simp only [hk, if_false]
      exact ih h1.2

theorem dollarFree_getProp {v : JsValue} (h : dollarFree v = true) (k : String) :
    dollarFree (getProp v k) = true := by
  cases v with
  | obj fields =>
    rw [getProp]
    exact dollarFree_lookupField h k
  | null => rfl
  | undef => rfl
  | bool b => rfl
  | num n => rfl
  | str s => rfl
  | arr vs => rfl

theorem dollarFree_toArr {v : JsValue} (h : dollarFree v = true) :
    ∀ c ∈ toArr v, dollarFree c = true := by
  cases v with
  | arr vs =>
    rw [toArr]
    exact dollarFreeList_mem h
  | null => intro c hc; simp [toArr] at hc
  | undef => intro c hc; simp [toArr] at hc
  | bool b => intro c hc; simp [toArr] at hc
  | num n => intro c hc; simp [toArr] at hc
  | str s => intro c hc; simp [toArr] at hc
  | obj fs => intro c hc; simp [toArr] at hc

theorem cd_elem_aux : ∀ (n : Nat) (v : JsValue), sizeOf v ≤ n → dollarFree v = true →
    countDollar (jsElemString v) = 0 := by
  intro n
  induction n with
  | zero =>
    intro v hv _
    exact absurd hv (by cases v <;> simp)
  | succ n ih =>
    intro v hv hdf
    cases v with
    | null => decide
    | undef => decide
    | bool b => cases b <;> decide
    | num m => exact countDollar_intToString m
    | str s =>
      rw [show jsElemString (JsValue.str s) = s from rfl, countDollar]
      rw [dollarFree] at hdf
      simpa using hdf
    | obj fs =>
      rw [show jsElemString (JsValue.obj fs) = "[object Object]" from rfl]
      decide
    | arr vs =>
      rw [show jsElemString (JsValue.arr vs) = jsJoinComma vs from rfl]
      rw [dollarFree] at hdf
      have hsz : sizeOf vs ≤ n := by simp at hv; omega
      clear hv
      induction vs with
      | nil => decide
      | cons w ws ihw =>
        rw [dollarFreeList] at hdf
        have hw : sizeOf w ≤ n := by simp at hsz; omega
        cases ws with
        | nil =>
          rw [show jsJoinComma [w] = jsElemString w from rfl]
          exact ih w hw (Bool.and_eq_true_iff.mp hdf).1
        | cons u us =>
          rw [show jsJoinComma (w :: u :: us) = jsElemString w ++ "," ++ jsJoinComma (u :: us)
            from rfl]
          rw [countDollar_append, countDollar_append]
          have h1 := ih w hw (Bool.and_eq_true_iff.mp hdf).1
          have hus : sizeOf (u :: us) ≤ n := by simp at hsz ⊢; omega
          have hdf2 := (Bool.and_eq_true_iff.mp hdf).2
          have h2 : countDollar (jsJoinComma (u :: us)) = 0 := by
            first
              | exact ihw hus hdf2
              | exact ihw hdf2 hus
          rw [h1, h2]
          decide

theorem countDollar_jsElemString {v : JsValue} (h : dollarFree v = true) :
    countDollar (jsElemString v) = 0 :=
  cd_elem_aux (sizeOf v) v le_rfl h

theorem countDollar_jsJoinComma {l : List JsValue} (h : dollarFreeList l = true) :
    countDollar (jsJoinComma l) = 0 := by
  induction l with
  | nil => decide
  | cons w ws ihw =>
    rw [dollarFreeList] at h
    cases ws with
    | nil =>
      rw [show jsJoinComma [w] = jsElemString w from rfl]
      exact countDollar_jsElemString (Bool.and_eq_true_iff.mp h).1
    | cons u us =>
      rw [show jsJoinComma (w :: u :: us) = jsElemString w ++ "," ++ jsJoinComma (u :: us)
        from rfl]
      rw [countDollar_append, countDollar_append]
      rw [countDollar_jsElemString (Bool.and_eq_true_iff.mp h).1,
        ihw (Bool.and_eq_true_iff.mp h).2]
      decide

theorem countDollar_jsToString {v : JsValue} (h : dollarFree v = true) :
    countDollar (jsToString v) = 0 := by
  cases v with
  | null => decide
  | undef => decide
  | bool b => cases b <;> decide
  | num m => exact countDollar_intToString m
  | str s =>
    rw [show jsToString (JsValue.str s) = s from rfl, countDollar]
    rw [dollarFree] at h
    simpa using h
  | arr vs =>
    rw [show jsToString (JsValue.arr vs) = jsJoinComma vs from rfl]
    rw [dollarFree] at h
    exact countDollar_jsJoinComma h
  | obj fs =>
    rw [show jsToString (JsValue.obj fs) = "[object Object]" from rfl]
    decide

theorem phSeq_txt_mem : ∀ (n start : Nat) (s : String), Tok.txt s ∈ phSeq start n →
    s = ", " := by
  intro n
  induction n with
  | zero => intro start s hs; simp [phSeq] at hs
  | succ m ih =>
    intro start s hs
    cases m with
    | zero => simp [phSeq] at hs
    | succ k =>
      simp only [phSeq] at hs
      rcases List.mem_cons.mp hs with h1 | hs2
      · simp at h1
      · rcases List.mem_cons.mp hs2 with h3 | h4
        · simpa using h3
        · exact ih (start + 1) s h4

theorem joinToks_txt_mem (j : String) : ∀ (ps : List (List Tok)) (s : String),
    Tok.txt s ∈ joinToks j ps → s = j ∨ ∃ p ∈ ps, Tok.txt s ∈ p := by
  intro ps
  induction ps with
  | nil => intro s hs; simp [joinToks] at hs
  | cons p rest ih =>
    intro s hs
    cases rest with
    | nil =>
      rw [show joinToks j [p] = p from rfl] at hs
      exact Or.inr ⟨p, List.mem_cons_self _ _, hs⟩
    | cons q rs =>
      rw [show joinToks j (p :: q :: rs) = p ++ Tok.txt j :: joinToks j (q :: rs) from rfl] at hs
      rcases List.mem_append.mp hs with h1 | h2
      · exact Or.inr ⟨p, List.mem_cons_self _ _, h1⟩
      · rcases List.mem_cons.mp h2 with h3 | h4
        · left; simpa using h3
        · rcases ih s h4 with h5 | ⟨p2, hp2, hp3⟩
          · exact Or.inl h5
          · exact Or.inr ⟨p2, List.mem_cons_of_mem _ hp2, hp3⟩

theorem dollarFreeList_toArr {v : JsValue} (h : dollarFree v = true) :
    dollarFreeList (toArr v) = true := by
  cases v with
  | arr vs => exact h
  | null => rfl
  | undef => rfl
  | bool b => rfl
  | num n => rfl
  | str s => rfl
  | obj fs => rfl

/-- Every literal text token emitted by the field-condition compiler is
dollar-free, provided the node itself is dollar-free. -/
theorem field_tdf (node : JsValue) (i : Nat) (hd : dollarFree node = true) :
    ∀ s, Tok.txt s ∈ (buildFieldTokens node i).toks → countDollar s = 0 := by
  have hf := countDollar_jsToString (dollarFree_getProp hd "field")
  have hop := countDollar_jsToString (dollarFree_getProp hd "operator")
  unfold buildFieldTokens
  cases h1 : (isStr (getProp node "operator") "IN" || isStr (getProp node "operator") "NOT IN") with
  | true =>
    simp only [h1, if_true]
    cases hv : (if truthy (getProp node "value") then getProp node "value" else JsValue.arr []) with
    | arr vs =>
      cases vs with
      | nil =>
        intro s hs
        rcases List.mem_cons.mp hs with h | h
        · have hs2 : s = (if isStr (getProp node "operator") "IN" then "1 = 0" else "1 = 1") := by
            simpa using h
          rw [hs2]
          cases h2 : isStr (getProp node "operator") "IN" <;>
            simp only [h2, if_true, Bool.false_eq_true, if_false] <;> decide
        · simp at h
      | cons v vt =>
        intro s hs
        dsimp only at hs
        rcases List.mem_cons.mp hs with h | h2
        · have hs2 : s = jsToString (getProp node "field") ++ " " ++
              jsToString (getProp node "operator") ++ " (" := by simpa using h
          rw [hs2]
          simp only [countDollar_append]
          rw [hf, hop]
          decide
        · rcases List.mem_append.mp h2 with h3 | h4
          · rw [phSeq_txt_mem _ _ _ h3]; decide
          · have hs2 : s = ")" := by simpa using h4
            rw [hs2]; decide
    | null =>
      intro s hs
      have hs2 : s = (if isStr (getProp node "operator") "IN" then "1 = 0" else "1 = 1") := by
        simpa using hs
      rw [hs2]
      cases h2 : isStr (getProp node "operator") "IN" <;>
        simp only [h2, if_true, Bool.false_eq_true, if_false] <;> decide
    | undef =>
      intro s hs
      have hs2 : s = (if isStr (getProp node "operator") "IN" then "1 = 0" else "1 = 1") := by
        simpa using hs
      rw [hs2]
      cases h2 : isStr (getProp node "operator") "IN" <;>
        simp only [h2, if_true, Bool.false_eq_true, if_false] <;> decide
    | bool b =>
      intro s hs
      have hs2 : s = (if isStr (getProp node "operator") "IN" then "1 = 0" else "1 = 1") := by
        simpa using hs
      rw [hs2]
      cases h2 : isStr (getProp node "operator") "IN" <;>
        simp only [h2, if_true, Bool.false_eq_true, if_false] <;> decide
    | num n =>
      intro s hs
      have hs2 : s = (if isStr (getProp node "operator") "IN" then "1 = 0" else "1 = 1") := by
        simpa using hs
      rw [hs2]
      cases h2 : isStr (getProp node "operator") "IN" <;>
        simp only [h2, if_true, Bool.false_eq_true, if_false] <;> decide
    | str t =>
      intro s hs
      have hs2 : s = (if isStr (getProp node "operator") "IN" then "1 = 0" else "1 = 1") := by
        simpa using hs
      rw [hs2]
      cases h2 : isStr (getProp node "operator") "IN" <;>
        simp only [h2, if_true, Bool.false_eq_true, if_false] <;> decide
    | obj fs =>
      intro s hs
      have hs2 : s = (if isStr (getProp node "operator") "IN" then "1 = 0" else "1 = 1") := by
        simpa using hs
      rw [hs2]
      cases h2 : isStr (getProp node "operator") "IN" <;>
        simp only [h2, if_true, Bool.false_eq_true, if_false] <;> decide
  | false =>
    simp only [h1, Bool.false_eq_true, if_false]
    cases h2 : isStr (getProp node "operator") "BETWEEN" with
    | true =>
      simp only [h2, if_true]
      intro s hs
      rcases List.mem_cons.mp hs with h | h3
      · have hs2 : s = jsToString (getProp node "field") ++ " BETWEEN " := by simpa using h
        rw [hs2, countDollar_append, hf]
        decide
      · have hs2 : s = " AND " := by simpa using h3
        rw [hs2]; decide
    | false =>
      simp only [h2, Bool.false_eq_true, if_false]
      cases h3 : isNullV (getProp node "value") with
      | true =>
        simp only [h3, if_true]
        intro s hs
        have hs2 : s = jsToString (getProp node "field") ++ " IS NULL" := by simpa using hs
        rw [hs2, countDollar_append, hf]
        decide
      | false =>
        simp only [h3, Bool.false_eq_true, if_false]
        intro s hs
        have hs2 : s = jsToString (getProp node "field") ++ " " ++
            jsToString (getProp node "operator") ++ " " := by simpa using hs
        rw [hs2]
        simp only [countDollar_append]
        rw [hf, hop]
        decide

/-- Every literal text token emitted by the condition compiler is dollar-free,
provided the node itself is dollar-free: all `$` characters of the rendered SQL
come from placeholders. -/
theorem tok_tdf (node : JsValue) (i : Nat) :
    dollarFree node = true →
    ∀ s, Tok.txt s ∈ (buildConditionTokens node i).toks → countDollar s = 0 := by
  refine buildConditionTokens.induct
    (fun node i =>
      dollarFree node = true →
      ∀ s, Tok.txt s ∈ (buildConditionTokens node i).toks → countDollar s = 0)
    (fun l i =>
      dollarFreeList l = true →
      ∀ s p, p ∈ (buildChildrenTokens l i).parts → Tok.txt s ∈ p → countDollar s = 0)
    ?_ ?_ ?_ ?_ ?_ ?_ ?_ ?_ node i
  · intro node i h t hnot hc _hd s hs
    rw [bct_not_nil_general node i h hnot hc] at hs
    simp at hs
  · intro node i h t hnot child _rest hc built hempty ih _hd s hs
    rw [bct_not_cons_general node child _rest i h hnot hc] at hs
    simp only [hempty, if_true] at hs
    simp at hs
  · intro node i h t hnot child _rest hc built hne ih hd s hs
    have hdc : dollarFree child = true :=
      dollarFree_toArr (dollarFree_getProp hd "conditions") child
        (by rw [hc]; exact List.mem_cons_self _ _)
    have hbf : (renderToks (buildConditionTokens child i).toks == "") = false := by
      simpa using hne
    rw [bct_not_cons_general node child _rest i h hnot hc] at hs
    simp only [hbf, Bool.false_eq_true, if_false] at hs
    rcases List.mem_cons.mp hs with h4 | h5
    · have hs2 : s = "NOT (" := by simpa using h4
      rw [hs2]; decide
    · rcases List.mem_append.mp h5 with h6 | h7
      · exact ih hdc s h6
      · have hs2 : s = ")" := by simpa using h7
        rw [hs2]; decide
  · intro node i h t hnot ih hd s hs
    have hdl : dollarFreeList (toArr (getProp node "conditions")) = true :=
      dollarFreeList_toArr (dollarFree_getProp hd "conditions")
    rw [bct_andor_general node i h (Bool.eq_false_iff.mpr hnot)] at hs
    dsimp only at hs
    rcases joinToks_txt_mem _ _ s hs with h4 | ⟨p, hp, hmem⟩
    · rw [h4]
      cases h5 : isStr (getProp node "type") "AND" <;>
        simp only [h5, if_true, Bool.false_eq_true, if_false] <;> decide
    · exact ih hdl s p hp hmem
  · intro node i h hd s hs
    have hb : hasProp node "type" = false := Bool.eq_false_iff.mpr h
    rw [bct_leaf_general node i hb] at hs
    exact field_tdf node i hd s hs
  · intro i _hd s p hp _hs
    rw [buildChildrenTokens_nil] at hp
    simp at hp
  · intro i c rest b hempty ihc ihrest hdl s p hp hs
    have hdr : dollarFreeList rest = true := (Bool.and_eq_true_iff.mp hdl).2
    rw [buildChildrenTokens_cons] at hp
    simp only [hempty, if_true] at hp
    exact ihrest hdr s p hp hs
  · intro i c rest b hne ihc ihrest hdl s p hp hs
    have hdc : dollarFree c = true := (Bool.and_eq_true_iff.mp hdl).1
    have hdr : dollarFreeList rest = true := (Bool.and_eq_true_iff.mp hdl).2
    have hbf : (renderToks (buildConditionTokens c i).toks == "") = false := by
      simpa using hne
    have hbeq : b = buildConditionTokens c i := rfl
    rw [hbeq] at ihrest
    rw [buildChildrenTokens_cons] at hp
    simp only [hbf, Bool.false_eq_true, if_false] at hp
    rcases List.mem_cons.mp hp with rfl | hm
    · rcases List.mem_cons.mp hs with h4 | h5
      · have hs2 : s = "(" := by simpa using h4
        rw [hs2]; decide
      · rcases List.mem_append.mp h5 with h6 | h7
        · exact ihc hdc s h6
        · have hs2 : s = ")" := by simpa using h7
          rw [hs2]; decide
    · exact ihrest hdr s p hm hs

theorem dollarFree_mkFieldCondition {k op : String} {v : JsValue}
    (hk : (k.toList.count '$' == 0) = true)
    (hop : (op.toList.count '$' == 0) = true)
    (hv : dollarFree v = true) :
    dollarFree (mkFieldCondition k op v) = true := by
  rw [show mkFieldCondition k op v =
    JsValue.obj [("field", .str k), ("operator", .str op), ("value", v)] from rfl]
  rw [show dollarFree (JsValue.obj [("field", JsValue.str k), ("operator", JsValue.str op),
      ("value", v)]) = dollarFreeFields [("field", JsValue.str k), ("operator", JsValue.str op),
      ("value", v)] from rfl]
  rw [dollarFreeFields, dollarFreeFields, dollarFreeFields]
  rw [show dollarFree (JsValue.str k) = (k.toList.count '$' == 0) from rfl]
  rw [show dollarFree (JsValue.str op) = (op.toList.count '$' == 0) from rfl]
  rw [hk, hop, hv]
  decide

theorem fieldConditions_dollarFree : ∀ (entries : List (String × JsValue)),
    dollarFreeFields entries = true →
    dollarFreeList (entries.filterMap (fun kv =>
      match kv.2 with
      | JsValue.undef => none
      | .arr vs => some (mkFieldCondition kv.1 "IN" (.arr vs))
      | v => some (mkFieldCondition kv.1 "=" v))) = true := by
  intro entries
  induction entries with
  | nil => intro _; rfl
  | cons kv rest ih =>
    obtain ⟨k, v⟩ := kv
    intro h
    rw [dollarFreeFields] at h
    have h1 := Bool.and_eq_true_iff.mp h
    have h2 := Bool.and_eq_true_iff.mp h1.1
    rw [List.filterMap_cons]
    cases v with
    | undef =>
      dsimp only
      exact ih h1.2
    | arr vs =>
      dsimp only
      rw [dollarFreeList]
      rw [dollarFree_mkFieldCondition h2.1 (by decide) h2.2, ih h1.2]
      rfl
    | null =>
      dsimp only
      rw [dollarFreeList]
      rw [dollarFree_mkFieldCondition h2.1 (by decide) h2.2, ih h1.2]
      rfl
    | bool b =>
      dsimp only
      rw [dollarFreeList]
      rw [dollarFree_mkFieldCondition h2.1 (by decide) h2.2, ih h1.2]
      rfl
    | num n =>
      dsimp only
      rw [dollarFreeList]
      rw [dollarFree_mkFieldCondition h2.1 (by decide) h2.2, ih h1.2]
      rfl
    | str s =>
      dsimp only
      rw [dollarFreeList]
      rw [dollarFree_mkFieldCondition h2.1 (by decide) h2.2, ih h1.2]
      rfl
    | obj fs =>
      dsimp only
      rw [dollarFreeList]
      rw [dollarFree_mkFieldCondition h2.1 (by decide) h2.2, ih h1.2]
      rfl

theorem dollarFree_andNode (l : List JsValue) (h : dollarFreeList l = true) :
    dollarFree (JsValue.obj [("type", JsValue.str "AND"),
      ("conditions", JsValue.arr l)]) = true := by
  rw [show dollarFree (JsValue.obj [("type", JsValue.str "AND"), ("conditions", JsValue.arr l)]) =
    dollarFreeFields [("type", JsValue.str "AND"), ("conditions", JsValue.arr l)] from rfl]
  rw [dollarFreeFields, dollarFreeFields]
  rw [show dollarFree (JsValue.arr l) = dollarFreeList l from rfl, h]
  decide

theorem rec_dollarFree {entries : List (String × JsValue)}
    (h : dollarFreeFields entries = true) :
    ∀ n', recordToConditionNode entries = some n' → dollarFree n' = true := by
  intro n' hn'
  have hlist := fieldConditions_dollarFree entries h
  rw [recordToConditionNode] at hn'
  cases hfc : entries.filterMap (fun kv =>
      match kv.2 with
      | JsValue.undef => none
      | .arr vs => some (mkFieldCondition kv.1 "IN" (.arr vs))
      | v => some (mkFieldCondition kv.1 "=" v)) with
  | nil =>
    rw [hfc] at hn'
    simp at hn'
  | cons f1 fs =>
    rw [hfc] at hlist
    cases fs with
    | nil =>
      rw [hfc] at hn'
      have he : f1 = n' := by simpa using hn'
      rw [← he]
      rw [dollarFreeList] at hlist
      exact (Bool.and_eq_true_iff.mp hlist).1
    | cons f2 fs2 =>
      rw [hfc] at hn'
      have he : JsValue.obj [("type", .str "AND"),
          ("conditions", .arr (f1 :: f2 :: fs2))] = n' := by simpa using hn'
      rw [← he]
      exact dollarFree_andNode _ hlist

theorem dollarFreeFields_map_num : ∀ (l : List (Nat × JsValue)),
    (∀ p ∈ l, dollarFree p.2 = true) →
    dollarFreeFields (l.map (fun p => (toString p.1, p.2))) = true := by
  intro l
  induction l with
  | nil => intro _; rfl
  | cons p rest ih =>
    intro h
    rw [List.map_cons, dollarFreeFields]
    have hk : ((toString p.1).toList.count '$' == 0) = true := by
      have hc := countDollar_natToString p.1
      rw [countDollar] at hc
      simpa using hc
    rw [hk, h p (List.mem_cons_self _ _), ih (fun q hq => h q (List.mem_cons_of_mem _ hq))]
    rfl

theorem dollarFreeFields_map_char : ∀ (l : List (Nat × Char)),
    (∀ p ∈ l, p.2 ≠ '$') →
    dollarFreeFields (l.map (fun p => (toString p.1, JsValue.str (String.mk [p.2])))) = true := by
  intro l
  induction l with
  | nil => intro _; rfl
  | cons p rest ih =>
    intro h
    rw [List.map_cons, dollarFreeFields]
    have hk : ((toString p.1).toList.count '$' == 0) = true := by
      have hc := countDollar_natToString p.1
      rw [countDollar] at hc
      simpa using hc
    have hv : dollarFree (JsValue.str (String.mk [p.2])) = true := by
      rw [show dollarFree (JsValue.str (String.mk [p.2])) =
        ((String.mk [p.2]).toList.count '$' == 0) from rfl]
      rw [show (String.mk [p.2]).toList = [p.2] from rfl]
      have hp2 : ¬ ('$' = p.2) := fun he => h p (List.mem_cons_self _ _) he.symm
      simp [List.count_cons, hp2]
    rw [hk, hv, ih (fun q hq => h q (List.mem_cons_of_mem _ hq))]
    rfl

theorem dollarFreeFields_entriesOf (w : JsValue) (hd : dollarFree w = true) :
    dollarFreeFields (entriesOf w) = true := by
  cases w with
  | obj fs => exact hd
  | arr vs =>
    rw [show entriesOf (JsValue.arr vs) =
      ((List.range vs.length).zip vs).map (fun p => (toString p.1, p.2)) from rfl]
    refine dollarFreeFields_map_num _ ?_
    intro p hp
    obtain ⟨a, b⟩ := p
    exact dollarFreeList_mem hd b (List.of_mem_zip hp).2
  | str s =>
    rw [show entriesOf (JsValue.str s) =
      ((List.range s.length).zip s.toList).map
        (fun p => (toString p.1, JsValue.str (String.mk [p.2]))) from rfl]
    refine dollarFreeFields_map_char _ ?_
    intro p hp
    obtain ⟨a, c⟩ := p
    have hc : c ∈ s.toList := (List.of_mem_zip hp).2
    have hcount : s.toList.count '$' = 0 := by
      rw [show dollarFree (JsValue.str s) = ((s.toList.count '$') == 0) from rfl] at hd
      simpa using hd
    intro he
    have he2 : c = '$' := he
    rw [he2] at hc
    exact List.count_eq_zero.mp hcount hc
  | null => rfl
  | undef => rfl
  | bool b => rfl
  | num n => rfl

/-- Every literal text token of a compiled WHERE clause is dollar-free,
provided the filter value itself is dollar-free. -/
theorem where_tdf (w : JsValue) (i : Nat) (hd : dollarFree w = true) :
    ∀ s, Tok.txt s ∈ (buildWhereTokens w i).1 → countDollar s = 0 := by
  unfold buildWhereTokens
  cases htr : truthy w with
  | false => intro s hs; simp [htr] at hs
  | true =>
    simp only [htr, Bool.true_eq_false, if_false, reduceIte]
    cases hty : (truthy (getProp w "type") || truthy (getProp w "field")) with
    | true =>
      simp only [hty, if_true]
      cases hre : (renderToks (buildConditionTokens w i).toks == "") with
      | true =>
        simp only [hre, if_true]
        intro s hs
        simp at hs
      | false =>
        simp only [hre, Bool.false_eq_true, if_false]
        intro s hs
        rcases List.mem_cons.mp hs with h4 | h5
        · have hs2 : s = "WHERE " := by simpa using h4
          rw [hs2]; decide
        · exact tok_tdf w i hd s h5
    | false =>
      simp only [hty, Bool.false_eq_true, if_false]
      cases hrc : recordToConditionNode (entriesOf w) with
      | none =>
        intro s hs
        simp at hs
      | some node =>
        have hdn : dollarFree node = true :=
          rec_dollarFree (dollarFreeFields_entriesOf w hd) node hrc
        cases hre : (renderToks (buildConditionTokens node i).toks == "") with
        | true =>
          simp only [hre, if_true]
          intro s hs
          simp at hs
        | false =>
          simp only [hre, Bool.false_eq_true, if_false]
          intro s hs
          rcases List.mem_cons.mp hs with h4 | h5
          · have hs2 : s = "WHERE " := by simpa using h4
            rw [hs2]; decide
          · exact tok_tdf node i hdn s h5

/-- C1: for every condition tree (arbitrarily nested AND/OR/NOT, including
empty-IN leaves and empty logical nodes) whose strings are dollar-free, and
every start index, the clause compiled by `buildWhereClause` satisfies: its
token form renders to exactly the produced sql with exactly the produced
params, its placeholder numbers are `startIndex, startIndex+1, ...` in order
(so the i-th parameter, 0-based, binds to placeholder `startIndex + i`), and
the number of `$` characters in the sql equals the length of the params
array. -/
theorem where_clause_placeholder_numbering (node : JsValue) (i : Nat)
    (hd : dollarFree node = true) :
    renderToks (buildWhereTokens node i).1 = (buildWhereClause node i).1 ∧
    (buildWhereTokens node i).2 = (buildWhereClause node i).2 ∧
    phNums (buildWhereTokens node i).1 =
      List.range' i ((buildWhereClause node i).2.length) ∧
    countDollar (buildWhereClause node i).1 = (buildWhereClause node i).2.length := by
  obtain ⟨c1, c2⟩ := where_corr node i
  have inv := where_inv node i
  have tdf := where_tdf node i hd
  refine ⟨c1, c2, ?_, ?_⟩
  · rw [← c2]
    exact inv
  · rw [← c1, countDollar_renderToks _ tdf, inv, List.length_range', c2]

/-- Witness for C1 at a concrete nested tree (AND of a leaf, an empty OR, an
IN leaf and a NOT of an empty-IN leaf) and start index 1. -/
theorem where_clause_placeholder_numbering_witness :
    dollarFree (JsValue.obj [("type", JsValue.str "AND"), ("conditions", JsValue.arr
      [JsValue.obj [("field", JsValue.str "a"), ("operator", JsValue.str "="),
         ("value", JsValue.num 1)],
       JsValue.obj [("type", JsValue.str "OR"), ("conditions", JsValue.arr [])],
       JsValue.obj [("field", JsValue.str "tags"), ("operator", JsValue.str "IN"),
         ("value", JsValue.arr [JsValue.num 1, JsValue.num 2])],
       JsValue.obj [("type", JsValue.str "NOT"), ("conditions", JsValue.arr
         [JsValue.obj [("field", JsValue.str "x"), ("operator", JsValue.str "IN"),
            ("value", JsValue.arr [])]])]])]) = true ∧
    (renderToks (buildWhereTokens (JsValue.obj [("type", JsValue.str "AND"), ("conditions", JsValue.arr
      [JsValue.obj [("field", JsValue.str "a"), ("operator", JsValue.str "="),
         ("value", JsValue.num 1)],
       JsValue.obj [("type", JsValue.str "OR"), ("conditions", JsValue.arr [])],
       JsValue.obj [("field", JsValue.str "tags"), ("operator", JsValue.str "IN"),
         ("value", JsValue.arr [JsValue.num 1, JsValue.num 2])],
       JsValue.obj [("type", JsValue.str "NOT"), ("conditions", JsValue.arr
         [JsValue.obj [("field", JsValue.str "x"), ("operator", JsValue.str "IN"),
            ("value", JsValue.arr [])]])]])]) 1).1 = (buildWhereClause (JsValue.obj [("type", JsValue.str "AND"), ("conditions", JsValue.arr
      [JsValue.obj [("field", JsValue.str "a"), ("operator", JsValue.str "="),
         ("value", JsValue.num 1)],
       JsValue.obj [("type", JsValue.str "OR"), ("conditions", JsValue.arr [])],
       JsValue.obj [("field", JsValue.str "tags"), ("operator", JsValue.str "IN"),
         ("value", JsValue.arr [JsValue.num 1, JsValue.num 2])],
       JsValue.obj [("type", JsValue.str "NOT"), ("conditions", JsValue.arr
         [JsValue.obj [("field", JsValue.str "x"), ("operator", JsValue.str "IN"),
            ("value", JsValue.arr [])]])]])]) 1).1 ∧
     (buildWhereTokens (JsValue.obj [("type", JsValue.str "AND"), ("conditions", JsValue.arr
      [JsValue.obj [("field", JsValue.str "a"), ("operator", JsValue.str "="),
         ("value", JsValue.num 1)],
       JsValue.obj [("type", JsValue.str "OR"), ("conditions", JsValue.arr [])],
       JsValue.obj [("field", JsValue.str "tags"), ("operator", JsValue.str "IN"),
         ("value", JsValue.arr [JsValue.num 1, JsValue.num 2])],
       JsValue.obj [("type", JsValue.str "NOT"), ("conditions", JsValue.arr
         [JsValue.obj [("field", JsValue.str "x"), ("operator", JsValue.str "IN"),
            ("value", JsValue.arr [])]])]])]) 1).2 = (buildWhereClause (JsValue.obj [("type", JsValue.str "AND"), ("conditions", JsValue.arr
      [JsValue.obj [("field", JsValue.str "a"), ("operator", JsValue.str "="),
         ("value", JsValue.num 1)],
       JsValue.obj [("type", JsValue.str "OR"), ("conditions", JsValue.arr [])],
       JsValue.obj [("field", JsValue.str "tags"), ("operator", JsValue.str "IN"),
         ("value", JsValue.arr [JsValue.num 1, JsValue.num 2])],
       JsValue.obj [("type", JsValue.str "NOT"), ("conditions", JsValue.arr
         [JsValue.obj [("field", JsValue.str "x"), ("operator", JsValue.str "IN"),
            ("value", JsValue.arr [])]])]])]) 1).2 ∧
     phNums (buildWhereTokens (JsValue.obj [("type", JsValue.str "AND"), ("conditions", JsValue.arr
      [JsValue.obj [("field", JsValue.str "a"), ("operator", JsValue.str "="),
         ("value", JsValue.num 1)],
       JsValue.obj [("type", JsValue.str "OR"), ("conditions", JsValue.arr [])],
       JsValue.obj [("field", JsValue.str "tags"), ("operator", JsValue.str "IN"),
         ("value", JsValue.arr [JsValue.num 1, JsValue.num 2])],
       JsValue.obj [("type", JsValue.str "NOT"), ("conditions", JsValue.arr
         [JsValue.obj [("field", JsValue.str "x"), ("operator", JsValue.str "IN"),
            ("value", JsValue.arr [])]])]])]) 1).1 =
       List.range' 1 ((buildWhereClause (JsValue.obj [("type", JsValue.str "AND"), ("conditions", JsValue.arr
      [JsValue.obj [("field", JsValue.str "a"), ("operator", JsValue.str "="),
         ("value", JsValue.num 1)],
       JsValue.obj [("type", JsValue.str "OR"), ("conditions", JsValue.arr [])],
       JsValue.obj [("field", JsValue.str "tags"), ("operator", JsValue.str "IN"),
         ("value", JsValue.arr [JsValue.num 1, JsValue.num 2])],
       JsValue.obj [("type", JsValue.str "NOT"), ("conditions", JsValue.arr
         [JsValue.obj [("field", JsValue.str "x"), ("operator", JsValue.str "IN"),
            ("value", JsValue.arr [])]])]])]) 1).2.length) ∧
     countDollar (buildWhereClause (JsValue.obj [("type", JsValue.str "AND"), ("conditions", JsValue.arr
      [JsValue.obj [("field", JsValue.str "a"), ("operator", JsValue.str "="),
         ("value", JsValue.num 1)],
       JsValue.obj [("type", JsValue.str "OR"), ("conditions", JsValue.arr [])],
       JsValue.obj [("field", JsValue.str "tags"), ("operator", JsValue.str "IN"),
         ("value", JsValue.arr [JsValue.num 1, JsValue.num 2])],
       JsValue.obj [("type", JsValue.str "NOT"), ("conditions", JsValue.arr
         [JsValue.obj [("field", JsValue.str "x"), ("operator", JsValue.str "IN"),
            ("value", JsValue.arr [])]])]])]) 1).1 = (buildWhereClause (JsValue.obj [("type", JsValue.str "AND"), ("conditions", JsValue.arr
      [JsValue.obj [("field", JsValue.str "a"), ("operator", JsValue.str "="),
         ("value", JsValue.num 1)],
       JsValue.obj [("type", JsValue.str "OR"), ("conditions", JsValue.arr [])],
       JsValue.obj [("field", JsValue.str "tags"), ("operator", JsValue.str "IN"),
         ("value", JsValue.arr [JsValue.num 1, JsValue.num 2])],
       JsValue.obj [("type", JsValue.str "NOT"), ("conditions", JsValue.arr
         [JsValue.obj [("field", JsValue.str "x"), ("operator", JsValue.str "IN"),
            ("value", JsValue.arr [])]])]])]) 1).2.length) :=
  ⟨by decide, where_clause_placeholder_numbering (JsValue.obj [("type", JsValue.str "AND"), ("conditions", JsValue.arr
      [JsValue.obj [("field", JsValue.str "a"), ("operator", JsValue.str "="),
         ("value", JsValue.num 1)],
       JsValue.obj [("type", JsValue.str "OR"), ("conditions", JsValue.arr [])],
       JsValue.obj [("field", JsValue.str "tags"), ("operator", JsValue.str "IN"),
         ("value", JsValue.arr [JsValue.num 1, JsValue.num 2])],
       JsValue.obj [("type", JsValue.str "NOT"), ("conditions", JsValue.arr
         [JsValue.obj [("field", JsValue.str "x"), ("operator", JsValue.str "IN"),
            ("value", JsValue.arr [])]])]])]) 1 (by decide)⟩

end PgRecords
